import Mathlib

/-!
Shallow embedding of the SVMC volume-preprocessing pipeline of
`mcx_svmc.cu` (together with the float3 helpers of `mcx_vector_math.cu`).

Modelling conventions:

* `float` arithmetic is embedded as exact rational arithmetic (`ℚ`).
* `sqrtf` is not rational-valued, so every definition that needs it takes a
  parameter `sq : ℚ → ℚ` standing for the square-root routine; theorems that
  depend on properties of the square root state them as hypotheses
  (for instance `0 ≤ x → x ≤ sq x ^ 2`, which the exact square root and any
  over-approximation satisfy).
* a float division whose divisor may be zero (producing `NaN`/`Inf` in the C
  code) is embedded as a checked division returning `Option`; a `none` result
  marks a division by zero, i.e. a NaN being produced by the CUDA kernel.
* the output buffer `unsigned char* new_vol` is embedded as a byte state
  `ℕ → ℕ` mapping a byte address to its value; a 32-bit word read
  (`(unsigned int*)new_vol`) is assembled from four bytes.  Only the
  zero/non-zero status of such a word is ever used by the code, which is
  endianness independent.
* the per-label binary-mask and gaussian-blur stages produce the smoothed
  scalar fields; their weights come from `expf` and are not rational, so the
  pipeline is parametrised by the family `fields : ℕ → (ℕ × ℕ × ℕ) → ℚ` of
  smoothed fields (one per label), which is exactly the data `split_voxel`
  consumes.
* GPU resource management (device selection, cudaMalloc/cudaMemcpy and the
  fatal `CUDA_ASSERT` path) and the external collaborator `mcx_maskdet` are
  out of scope per the specification and are not modelled.
-/

namespace SVMC

/-- A float3 value, embedded with exact rational components. -/
abbrev Vec3 := ℚ × ℚ × ℚ

/-- A 3-D unsigned integer index (uint3). -/
abbrev Idx3 := ℕ × ℕ × ℕ

/-- Componentwise addition of float3 vectors (operator + of mcx_vector_math.cu). -/
def vadd (a b : Vec3) : Vec3 := (a.1 + b.1, a.2.1 + b.2.1, a.2.2 + b.2.2)

/-- Componentwise subtraction of float3 vectors (operator - of mcx_vector_math.cu). -/
def vsub (a b : Vec3) : Vec3 := (a.1 - b.1, a.2.1 - b.2.1, a.2.2 - b.2.2)

/-- Negation of a float3 vector (unary operator - of mcx_vector_math.cu). -/
def vneg (a : Vec3) : Vec3 := (-a.1, -a.2.1, -a.2.2)

/-- Scalar multiplication of a float3 vector (operator * of mcx_vector_math.cu). -/
def smul (k : ℚ) (a : Vec3) : Vec3 := (k * a.1, k * a.2.1, k * a.2.2)

/-- Dot product of two float3 vectors (dot of mcx_vector_math.cu). -/
def dot (a b : Vec3) : ℚ := a.1 * b.1 + a.2.1 * b.2.1 + a.2.2 * b.2.2

/-- Cross product of two float3 vectors (cross of mcx_vector_math.cu). -/
def cross (a b : Vec3) : Vec3 :=
  (a.2.1 * b.2.2 - a.2.2 * b.2.1, a.2.2 * b.1 - a.1 * b.2.2, a.1 * b.2.1 - a.2.1 * b.1)

/-- Checked componentwise division of a float3 by a scalar
(operator / of mcx_vector_math.cu); `none` marks a division by zero, i.e. a
NaN/Inf produced by the float code. -/
def divV3 (a : Vec3) (b : ℚ) : Option Vec3 :=
  if b = 0 then none else some (a.1 / b, a.2.1 / b, a.2.2 / b)

/-- Componentwise addition of uint3 indices (operator + for uint3). -/
def iadd (a b : Idx3) : Idx3 := (a.1 + b.1, a.2.1 + b.2.1, a.2.2 + b.2.2)

/-- Cast of a uint3 to a float3 (make_float3 of mcx_vector_math.cu). -/
def vecOfIdx (p : Idx3) : Vec3 := ((p.1 : ℚ), (p.2.1 : ℚ), (p.2.2 : ℚ))

/-- Conversion of a 3-D index to a flat 1-D index
(flatten_3d_to_1d of mcx_svmc.cu). -/
def flatten_3d_to_1d (idx3d dim : Idx3) : ℕ :=
  idx3d.1 + idx3d.2.1 * dim.1 + idx3d.2.2 * dim.1 * dim.2.1

/-- The isovalue MCX_SVMC_ISOVALUE (0.5f). -/
def MCX_SVMC_ISOVALUE : ℚ := 1 / 2

/-- Positions of the 8 cube corners in the local coordinate system
(cube_vertices_local of mcx_svmc.cu). -/
def cube_vertices_local : ℕ → Idx3
  | 0 => (0, 0, 0)
  | 1 => (1, 0, 0)
  | 2 => (1, 0, 1)
  | 3 => (0, 0, 1)
  | 4 => (0, 1, 0)
  | 5 => (1, 1, 0)
  | 6 => (1, 1, 1)
  | 7 => (0, 1, 1)
  | _ => (0, 0, 0)

/-- Endpoint corner indices of the 12 cube edges (edge_vertices of mcx_svmc.cu). -/
def edge_vertices : ℕ → ℕ × ℕ
  | 0 => (0, 1)
  | 1 => (1, 2)
  | 2 => (2, 3)
  | 3 => (0, 3)
  | 4 => (4, 5)
  | 5 => (5, 6)
  | 6 => (6, 7)
  | 7 => (4, 7)
  | 8 => (0, 4)
  | 9 => (1, 5)
  | 10 => (2, 6)
  | 11 => (3, 7)
  | _ => (0, 0)
/-- Edge-intersection bitmask table, transcribed from the constant array
edge_intersections[256] in mcx_svmc.cu. -/
def edge_intersections : List Nat := [
  0x000, 0x109, 0x203, 0x30a, 0x406, 0x50f, 0x605, 0x70c,
  0x80c, 0x905, 0xa0f, 0xb06, 0xc0a, 0xd03, 0xe09, 0xf00,
  0x190, 0x099, 0x393, 0x29a, 0x596, 0x49f, 0x795, 0x69c,
  0x99c, 0x895, 0xb9f, 0xa96, 0xd9a, 0xc93, 0xf99, 0xe90,
  0x230, 0x339, 0x033, 0x13a, 0x636, 0x73f, 0x435, 0x53c,
  0xa3c, 0xb35, 0x83f, 0x936, 0xe3a, 0xf33, 0xc39, 0xd30,
  0x3a0, 0x2a9, 0x1a3, 0x0aa, 0x7a6, 0x6af, 0x5a5, 0x4ac,
  0xbac, 0xaa5, 0x9af, 0x8a6, 0xfaa, 0xea3, 0xda9, 0xca0,
  0x460, 0x569, 0x663, 0x76a, 0x066, 0x16f, 0x265, 0x36c,
  0xc6c, 0xd65, 0xe6f, 0xf66, 0x86a, 0x963, 0xa69, 0xb60,
  0x5f0, 0x4f9, 0x7f3, 0x6fa, 0x1f6, 0x0ff, 0x3f5, 0x2fc,
  0xdfc, 0xcf5, 0xfff, 0xef6, 0x9fa, 0x8f3, 0xbf9, 0xaf0,
  0x650, 0x759, 0x453, 0x55a, 0x256, 0x35f, 0x055, 0x15c,
  0xe5c, 0xf55, 0xc5f, 0xd56, 0xa5a, 0xb53, 0x859, 0x950,
  0x7c0, 0x6c9, 0x5c3, 0x4ca, 0x3c6, 0x2cf, 0x1c5, 0x0cc,
  0xfcc, 0xec5, 0xdcf, 0xcc6, 0xbca, 0xac3, 0x9c9, 0x8c0,
  0x8c0, 0x9c9, 0xac3, 0xbca, 0xcc6, 0xdcf, 0xec5, 0xfcc,
  0x0cc, 0x1c5, 0x2cf, 0x3c6, 0x4ca, 0x5c3, 0x6c9, 0x7c0,
  0x950, 0x859, 0xb53, 0xa5a, 0xd56, 0xc5f, 0xf55, 0xe5c,
  0x15c, 0x055, 0x35f, 0x256, 0x55a, 0x453, 0x759, 0x650,
  0xaf0, 0xbf9, 0x8f3, 0x9fa, 0xef6, 0xfff, 0xcf5, 0xdfc,
  0x2fc, 0x3f5, 0x0ff, 0x1f6, 0x6fa, 0x7f3, 0x4f9, 0x5f0,
  0xb60, 0xa69, 0x963, 0x86a, 0xf66, 0xe6f, 0xd65, 0xc6c,
  0x36c, 0x265, 0x16f, 0x066, 0x76a, 0x663, 0x569, 0x460,
  0xca0, 0xda9, 0xea3, 0xfaa, 0x8a6, 0x9af, 0xaa5, 0xbac,
  0x4ac, 0x5a5, 0x6af, 0x7a6, 0x0aa, 0x1a3, 0x2a9, 0x3a0,
  0xd30, 0xc39, 0xf33, 0xe3a, 0x936, 0x83f, 0xb35, 0xa3c,
  0x53c, 0x435, 0x73f, 0x636, 0x13a, 0x033, 0x339, 0x230,
  0xe90, 0xf99, 0xc93, 0xd9a, 0xa96, 0xb9f, 0x895, 0x99c,
  0x69c, 0x795, 0x49f, 0x596, 0x29a, 0x393, 0x099, 0x190,
  0xf00, 0xe09, 0xd03, 0xc0a, 0xb06, 0xa0f, 0x905, 0x80c,
  0x70c, 0x605, 0x50f, 0x406, 0x30a, 0x203, 0x109, 0x000]

/-- The sentinel entry -1 terminating the rows of the triangle table (named,
because elaborating thousands of negative literals in one list is slow). -/
def m1 : Int := -1

/-- Triangle table, transcribed from the constant array
triangle_vertices[256][16] in mcx_svmc.cu; each row lists triangle vertex edge
indices terminated by the sentinel m1 = -1. -/
def triangle_vertices : List (List Int) := [
  [m1, m1, m1, m1, m1, m1, m1, m1, m1, m1, m1, m1, m1, m1, m1, m1],
  [0, 8, 3, m1, m1, m1, m1, m1, m1, m1, m1, m1, m1, m1, m1, m1],
  [0, 1, 9, m1, m1, m1, m1, m1, m1, m1, m1, m1, m1, m1, m1, m1],
  [1, 8, 3, 9, 8, 1, m1, m1, m1, m1, m1, m1, m1, m1, m1, m1],
  [1, 2, 10, m1, m1, m1, m1, m1, m1, m1, m1, m1, m1, m1, m1, m1],
  [0, 8, 3, 1, 2, 10, m1, m1, m1, m1, m1, m1, m1, m1, m1, m1],
  [9, 2, 10, 0, 2, 9, m1, m1, m1, m1, m1, m1, m1, m1, m1, m1],
  [2, 8, 3, 2, 10, 8, 10, 9, 8, m1, m1, m1, m1, m1, m1, m1],
  [3, 11, 2, m1, m1, m1, m1, m1, m1, m1, m1, m1, m1, m1, m1, m1],
  [0, 11, 2, 8, 11, 0, m1, m1, m1, m1, m1, m1, m1, m1, m1, m1],
  [1, 9, 0, 2, 3, 11, m1, m1, m1, m1, m1, m1, m1, m1, m1, m1],
  [1, 11, 2, 1, 9, 11, 9, 8, 11, m1, m1, m1, m1, m1, m1, m1],
  [3, 10, 1, 11, 10, 3, m1, m1, m1, m1, m1, m1, m1, m1, m1, m1],
  [0, 10, 1, 0, 8, 10, 8, 11, 10, m1, m1, m1, m1, m1, m1, m1],
  [3, 9, 0, 3, 11, 9, 11, 10, 9, m1, m1, m1, m1, m1, m1, m1],
  [9, 8, 10, 10, 8, 11, m1, m1, m1, m1, m1, m1, m1, m1, m1, m1],
  [4, 7, 8, m1, m1, m1, m1, m1, m1, m1, m1, m1, m1, m1, m1, m1],
  [4, 3, 0, 7, 3, 4, m1, m1, m1, m1, m1, m1, m1, m1, m1, m1],
  [0, 1, 9, 8, 4, 7, m1, m1, m1, m1, m1, m1, m1, m1, m1, m1],
  [4, 1, 9, 4, 7, 1, 7, 3, 1, m1, m1, m1, m1, m1, m1, m1],
  [1, 2, 10, 8, 4, 7, m1, m1, m1, m1, m1, m1, m1, m1, m1, m1],
  [3, 4, 7, 3, 0, 4, 1, 2, 10, m1, m1, m1, m1, m1, m1, m1],
  [9, 2, 10, 9, 0, 2, 8, 4, 7, m1, m1, m1, m1, m1, m1, m1],
  [2, 10, 9, 2, 9, 7, 2, 7, 3, 7, 9, 4, m1, m1, m1, m1],
  [8, 4, 7, 3, 11, 2, m1, m1, m1, m1, m1, m1, m1, m1, m1, m1],
  [11, 4, 7, 11, 2, 4, 2, 0, 4, m1, m1, m1, m1, m1, m1, m1],
  [9, 0, 1, 8, 4, 7, 2, 3, 11, m1, m1, m1, m1, m1, m1, m1],
  [4, 7, 11, 9, 4, 11, 9, 11, 2, 9, 2, 1, m1, m1, m1, m1],
  [3, 10, 1, 3, 11, 10, 7, 8, 4, m1, m1, m1, m1, m1, m1, m1],
  [1, 11, 10, 1, 4, 11, 1, 0, 4, 7, 11, 4, m1, m1, m1, m1],
  [4, 7, 8, 9, 0, 11, 9, 11, 10, 11, 0, 3, m1, m1, m1, m1],
  [4, 7, 11, 4, 11, 9, 9, 11, 10, m1, m1, m1, m1, m1, m1, m1],
  [9, 5, 4, m1, m1, m1, m1, m1, m1, m1, m1, m1, m1, m1, m1, m1],
  [9, 5, 4, 0, 8, 3, m1, m1, m1, m1, m1, m1, m1, m1, m1, m1],
  [0, 5, 4, 1, 5, 0, m1, m1, m1, m1, m1, m1, m1, m1, m1, m1],
  [8, 5, 4, 8, 3, 5, 3, 1, 5, m1, m1, m1, m1, m1, m1, m1],
  [1, 2, 10, 9, 5, 4, m1, m1, m1, m1, m1, m1, m1, m1, m1, m1],
  [3, 0, 8, 1, 2, 10, 4, 9, 5, m1, m1, m1, m1, m1, m1, m1],
  [5, 2, 10, 5, 4, 2, 4, 0, 2, m1, m1, m1, m1, m1, m1, m1],
  [2, 10, 5, 3, 2, 5, 3, 5, 4, 3, 4, 8, m1, m1, m1, m1],
  [9, 5, 4, 2, 3, 11, m1, m1, m1, m1, m1, m1, m1, m1, m1, m1],
  [0, 11, 2, 0, 8, 11, 4, 9, 5, m1, m1, m1, m1, m1, m1, m1],
  [0, 5, 4, 0, 1, 5, 2, 3, 11, m1, m1, m1, m1, m1, m1, m1],
  [2, 1, 5, 2, 5, 8, 2, 8, 11, 4, 8, 5, m1, m1, m1, m1],
  [10, 3, 11, 10, 1, 3, 9, 5, 4, m1, m1, m1, m1, m1, m1, m1],
  [4, 9, 5, 0, 8, 1, 8, 10, 1, 8, 11, 10, m1, m1, m1, m1],
  [5, 4, 0, 5, 0, 11, 5, 11, 10, 11, 0, 3, m1, m1, m1, m1],
  [5, 4, 8, 5, 8, 10, 10, 8, 11, m1, m1, m1, m1, m1, m1, m1],
  [9, 7, 8, 5, 7, 9, m1, m1, m1, m1, m1, m1, m1, m1, m1, m1],
  [9, 3, 0, 9, 5, 3, 5, 7, 3, m1, m1, m1, m1, m1, m1, m1],
  [0, 7, 8, 0, 1, 7, 1, 5, 7, m1, m1, m1, m1, m1, m1, m1],
  [1, 5, 3, 3, 5, 7, m1, m1, m1, m1, m1, m1, m1, m1, m1, m1],
  [9, 7, 8, 9, 5, 7, 10, 1, 2, m1, m1, m1, m1, m1, m1, m1],
  [10, 1, 2, 9, 5, 0, 5, 3, 0, 5, 7, 3, m1, m1, m1, m1],
  [8, 0, 2, 8, 2, 5, 8, 5, 7, 10, 5, 2, m1, m1, m1, m1],
  [2, 10, 5, 2, 5, 3, 3, 5, 7, m1, m1, m1, m1, m1, m1, m1],
  [7, 9, 5, 7, 8, 9, 3, 11, 2, m1, m1, m1, m1, m1, m1, m1],
  [9, 5, 7, 9, 7, 2, 9, 2, 0, 2, 7, 11, m1, m1, m1, m1],
  [2, 3, 11, 0, 1, 8, 1, 7, 8, 1, 5, 7, m1, m1, m1, m1],
  [11, 2, 1, 11, 1, 7, 7, 1, 5, m1, m1, m1, m1, m1, m1, m1],
  [9, 5, 8, 8, 5, 7, 10, 1, 3, 10, 3, 11, m1, m1, m1, m1],
  [5, 7, 0, 5, 0, 9, 7, 11, 0, 1, 0, 10, 11, 10, 0, m1],
  [11, 10, 0, 11, 0, 3, 10, 5, 0, 8, 0, 7, 5, 7, 0, m1],
  [11, 10, 5, 7, 11, 5, m1, m1, m1, m1, m1, m1, m1, m1, m1, m1],
  [10, 6, 5, m1, m1, m1, m1, m1, m1, m1, m1, m1, m1, m1, m1, m1],
  [0, 8, 3, 5, 10, 6, m1, m1, m1, m1, m1, m1, m1, m1, m1, m1],
  [9, 0, 1, 5, 10, 6, m1, m1, m1, m1, m1, m1, m1, m1, m1, m1],
  [1, 8, 3, 1, 9, 8, 5, 10, 6, m1, m1, m1, m1, m1, m1, m1],
  [1, 6, 5, 2, 6, 1, m1, m1, m1, m1, m1, m1, m1, m1, m1, m1],
  [1, 6, 5, 1, 2, 6, 3, 0, 8, m1, m1, m1, m1, m1, m1, m1],
  [9, 6, 5, 9, 0, 6, 0, 2, 6, m1, m1, m1, m1, m1, m1, m1],
  [5, 9, 8, 5, 8, 2, 5, 2, 6, 3, 2, 8, m1, m1, m1, m1],
  [2, 3, 11, 10, 6, 5, m1, m1, m1, m1, m1, m1, m1, m1, m1, m1],
  [11, 0, 8, 11, 2, 0, 10, 6, 5, m1, m1, m1, m1, m1, m1, m1],
  [0, 1, 9, 2, 3, 11, 5, 10, 6, m1, m1, m1, m1, m1, m1, m1],
  [5, 10, 6, 1, 9, 2, 9, 11, 2, 9, 8, 11, m1, m1, m1, m1],
  [6, 3, 11, 6, 5, 3, 5, 1, 3, m1, m1, m1, m1, m1, m1, m1],
  [0, 8, 11, 0, 11, 5, 0, 5, 1, 5, 11, 6, m1, m1, m1, m1],
  [3, 11, 6, 0, 3, 6, 0, 6, 5, 0, 5, 9, m1, m1, m1, m1],
  [6, 5, 9, 6, 9, 11, 11, 9, 8, m1, m1, m1, m1, m1, m1, m1],
  [5, 10, 6, 4, 7, 8, m1, m1, m1, m1, m1, m1, m1, m1, m1, m1],
  [4, 3, 0, 4, 7, 3, 6, 5, 10, m1, m1, m1, m1, m1, m1, m1],
  [1, 9, 0, 5, 10, 6, 8, 4, 7, m1, m1, m1, m1, m1, m1, m1],
  [10, 6, 5, 1, 9, 7, 1, 7, 3, 7, 9, 4, m1, m1, m1, m1],
  [6, 1, 2, 6, 5, 1, 4, 7, 8, m1, m1, m1, m1, m1, m1, m1],
  [1, 2, 5, 5, 2, 6, 3, 0, 4, 3, 4, 7, m1, m1, m1, m1],
  [8, 4, 7, 9, 0, 5, 0, 6, 5, 0, 2, 6, m1, m1, m1, m1],
  [7, 3, 9, 7, 9, 4, 3, 2, 9, 5, 9, 6, 2, 6, 9, m1],
  [3, 11, 2, 7, 8, 4, 10, 6, 5, m1, m1, m1, m1, m1, m1, m1],
  [5, 10, 6, 4, 7, 2, 4, 2, 0, 2, 7, 11, m1, m1, m1, m1],
  [0, 1, 9, 4, 7, 8, 2, 3, 11, 5, 10, 6, m1, m1, m1, m1],
  [9, 2, 1, 9, 11, 2, 9, 4, 11, 7, 11, 4, 5, 10, 6, m1],
  [8, 4, 7, 3, 11, 5, 3, 5, 1, 5, 11, 6, m1, m1, m1, m1],
  [5, 1, 11, 5, 11, 6, 1, 0, 11, 7, 11, 4, 0, 4, 11, m1],
  [0, 5, 9, 0, 6, 5, 0, 3, 6, 11, 6, 3, 8, 4, 7, m1],
  [6, 5, 9, 6, 9, 11, 4, 7, 9, 7, 11, 9, m1, m1, m1, m1],
  [10, 4, 9, 6, 4, 10, m1, m1, m1, m1, m1, m1, m1, m1, m1, m1],
  [4, 10, 6, 4, 9, 10, 0, 8, 3, m1, m1, m1, m1, m1, m1, m1],
  [10, 0, 1, 10, 6, 0, 6, 4, 0, m1, m1, m1, m1, m1, m1, m1],
  [8, 3, 1, 8, 1, 6, 8, 6, 4, 6, 1, 10, m1, m1, m1, m1],
  [1, 4, 9, 1, 2, 4, 2, 6, 4, m1, m1, m1, m1, m1, m1, m1],
  [3, 0, 8, 1, 2, 9, 2, 4, 9, 2, 6, 4, m1, m1, m1, m1],
  [0, 2, 4, 4, 2, 6, m1, m1, m1, m1, m1, m1, m1, m1, m1, m1],
  [8, 3, 2, 8, 2, 4, 4, 2, 6, m1, m1, m1, m1, m1, m1, m1],
  [10, 4, 9, 10, 6, 4, 11, 2, 3, m1, m1, m1, m1, m1, m1, m1],
  [0, 8, 2, 2, 8, 11, 4, 9, 10, 4, 10, 6, m1, m1, m1, m1],
  [3, 11, 2, 0, 1, 6, 0, 6, 4, 6, 1, 10, m1, m1, m1, m1],
  [6, 4, 1, 6, 1, 10, 4, 8, 1, 2, 1, 11, 8, 11, 1, m1],
  [9, 6, 4, 9, 3, 6, 9, 1, 3, 11, 6, 3, m1, m1, m1, m1],
  [8, 11, 1, 8, 1, 0, 11, 6, 1, 9, 1, 4, 6, 4, 1, m1],
  [3, 11, 6, 3, 6, 0, 0, 6, 4, m1, m1, m1, m1, m1, m1, m1],
  [6, 4, 8, 11, 6, 8, m1, m1, m1, m1, m1, m1, m1, m1, m1, m1],
  [7, 10, 6, 7, 8, 10, 8, 9, 10, m1, m1, m1, m1, m1, m1, m1],
  [0, 7, 3, 0, 10, 7, 0, 9, 10, 6, 7, 10, m1, m1, m1, m1],
  [10, 6, 7, 1, 10, 7, 1, 7, 8, 1, 8, 0, m1, m1, m1, m1],
  [10, 6, 7, 10, 7, 1, 1, 7, 3, m1, m1, m1, m1, m1, m1, m1],
  [1, 2, 6, 1, 6, 8, 1, 8, 9, 8, 6, 7, m1, m1, m1, m1],
  [2, 6, 9, 2, 9, 1, 6, 7, 9, 0, 9, 3, 7, 3, 9, m1],
  [7, 8, 0, 7, 0, 6, 6, 0, 2, m1, m1, m1, m1, m1, m1, m1],
  [7, 3, 2, 6, 7, 2, m1, m1, m1, m1, m1, m1, m1, m1, m1, m1],
  [2, 3, 11, 10, 6, 8, 10, 8, 9, 8, 6, 7, m1, m1, m1, m1],
  [2, 0, 7, 2, 7, 11, 0, 9, 7, 6, 7, 10, 9, 10, 7, m1],
  [1, 8, 0, 1, 7, 8, 1, 10, 7, 6, 7, 10, 2, 3, 11, m1],
  [11, 2, 1, 11, 1, 7, 10, 6, 1, 6, 7, 1, m1, m1, m1, m1],
  [8, 9, 6, 8, 6, 7, 9, 1, 6, 11, 6, 3, 1, 3, 6, m1],
  [0, 9, 1, 11, 6, 7, m1, m1, m1, m1, m1, m1, m1, m1, m1, m1],
  [7, 8, 0, 7, 0, 6, 3, 11, 0, 11, 6, 0, m1, m1, m1, m1],
  [7, 11, 6, m1, m1, m1, m1, m1, m1, m1, m1, m1, m1, m1, m1, m1],
  [7, 6, 11, m1, m1, m1, m1, m1, m1, m1, m1, m1, m1, m1, m1, m1],
  [3, 0, 8, 11, 7, 6, m1, m1, m1, m1, m1, m1, m1, m1, m1, m1],
  [0, 1, 9, 11, 7, 6, m1, m1, m1, m1, m1, m1, m1, m1, m1, m1],
  [8, 1, 9, 8, 3, 1, 11, 7, 6, m1, m1, m1, m1, m1, m1, m1],
  [10, 1, 2, 6, 11, 7, m1, m1, m1, m1, m1, m1, m1, m1, m1, m1],
  [1, 2, 10, 3, 0, 8, 6, 11, 7, m1, m1, m1, m1, m1, m1, m1],
  [2, 9, 0, 2, 10, 9, 6, 11, 7, m1, m1, m1, m1, m1, m1, m1],
  [6, 11, 7, 2, 10, 3, 10, 8, 3, 10, 9, 8, m1, m1, m1, m1],
  [7, 2, 3, 6, 2, 7, m1, m1, m1, m1, m1, m1, m1, m1, m1, m1],
  [7, 0, 8, 7, 6, 0, 6, 2, 0, m1, m1, m1, m1, m1, m1, m1],
  [2, 7, 6, 2, 3, 7, 0, 1, 9, m1, m1, m1, m1, m1, m1, m1],
  [1, 6, 2, 1, 8, 6, 1, 9, 8, 8, 7, 6, m1, m1, m1, m1],
  [10, 7, 6, 10, 1, 7, 1, 3, 7, m1, m1, m1, m1, m1, m1, m1],
  [10, 7, 6, 1, 7, 10, 1, 8, 7, 1, 0, 8, m1, m1, m1, m1],
  [0, 3, 7, 0, 7, 10, 0, 10, 9, 6, 10, 7, m1, m1, m1, m1],
  [7, 6, 10, 7, 10, 8, 8, 10, 9, m1, m1, m1, m1, m1, m1, m1],
  [6, 8, 4, 11, 8, 6, m1, m1, m1, m1, m1, m1, m1, m1, m1, m1],
  [3, 6, 11, 3, 0, 6, 0, 4, 6, m1, m1, m1, m1, m1, m1, m1],
  [8, 6, 11, 8, 4, 6, 9, 0, 1, m1, m1, m1, m1, m1, m1, m1],
  [9, 4, 6, 9, 6, 3, 9, 3, 1, 11, 3, 6, m1, m1, m1, m1],
  [6, 8, 4, 6, 11, 8, 2, 10, 1, m1, m1, m1, m1, m1, m1, m1],
  [1, 2, 10, 3, 0, 11, 0, 6, 11, 0, 4, 6, m1, m1, m1, m1],
  [4, 11, 8, 4, 6, 11, 0, 2, 9, 2, 10, 9, m1, m1, m1, m1],
  [10, 9, 3, 10, 3, 2, 9, 4, 3, 11, 3, 6, 4, 6, 3, m1],
  [8, 2, 3, 8, 4, 2, 4, 6, 2, m1, m1, m1, m1, m1, m1, m1],
  [0, 4, 2, 4, 6, 2, m1, m1, m1, m1, m1, m1, m1, m1, m1, m1],
  [1, 9, 0, 2, 3, 4, 2, 4, 6, 4, 3, 8, m1, m1, m1, m1],
  [1, 9, 4, 1, 4, 2, 2, 4, 6, m1, m1, m1, m1, m1, m1, m1],
  [8, 1, 3, 8, 6, 1, 8, 4, 6, 6, 10, 1, m1, m1, m1, m1],
  [10, 1, 0, 10, 0, 6, 6, 0, 4, m1, m1, m1, m1, m1, m1, m1],
  [4, 6, 3, 4, 3, 8, 6, 10, 3, 0, 3, 9, 10, 9, 3, m1],
  [10, 9, 4, 6, 10, 4, m1, m1, m1, m1, m1, m1, m1, m1, m1, m1],
  [4, 9, 5, 7, 6, 11, m1, m1, m1, m1, m1, m1, m1, m1, m1, m1],
  [0, 8, 3, 4, 9, 5, 11, 7, 6, m1, m1, m1, m1, m1, m1, m1],
  [5, 0, 1, 5, 4, 0, 7, 6, 11, m1, m1, m1, m1, m1, m1, m1],
  [11, 7, 6, 8, 3, 4, 3, 5, 4, 3, 1, 5, m1, m1, m1, m1],
  [9, 5, 4, 10, 1, 2, 7, 6, 11, m1, m1, m1, m1, m1, m1, m1],
  [6, 11, 7, 1, 2, 10, 0, 8, 3, 4, 9, 5, m1, m1, m1, m1],
  [7, 6, 11, 5, 4, 10, 4, 2, 10, 4, 0, 2, m1, m1, m1, m1],
  [3, 4, 8, 3, 5, 4, 3, 2, 5, 10, 5, 2, 11, 7, 6, m1],
  [7, 2, 3, 7, 6, 2, 5, 4, 9, m1, m1, m1, m1, m1, m1, m1],
  [9, 5, 4, 0, 8, 6, 0, 6, 2, 6, 8, 7, m1, m1, m1, m1],
  [3, 6, 2, 3, 7, 6, 1, 5, 0, 5, 4, 0, m1, m1, m1, m1],
  [6, 2, 8, 6, 8, 7, 2, 1, 8, 4, 8, 5, 1, 5, 8, m1],
  [9, 5, 4, 10, 1, 6, 1, 7, 6, 1, 3, 7, m1, m1, m1, m1],
  [1, 6, 10, 1, 7, 6, 1, 0, 7, 8, 7, 0, 9, 5, 4, m1],
  [4, 0, 10, 4, 10, 5, 0, 3, 10, 6, 10, 7, 3, 7, 10, m1],
  [7, 6, 10, 7, 10, 8, 5, 4, 10, 4, 8, 10, m1, m1, m1, m1],
  [6, 9, 5, 6, 11, 9, 11, 8, 9, m1, m1, m1, m1, m1, m1, m1],
  [3, 6, 11, 0, 6, 3, 0, 5, 6, 0, 9, 5, m1, m1, m1, m1],
  [0, 11, 8, 0, 5, 11, 0, 1, 5, 5, 6, 11, m1, m1, m1, m1],
  [6, 11, 3, 6, 3, 5, 5, 3, 1, m1, m1, m1, m1, m1, m1, m1],
  [1, 2, 10, 9, 5, 11, 9, 11, 8, 11, 5, 6, m1, m1, m1, m1],
  [0, 11, 3, 0, 6, 11, 0, 9, 6, 5, 6, 9, 1, 2, 10, m1],
  [11, 8, 5, 11, 5, 6, 8, 0, 5, 10, 5, 2, 0, 2, 5, m1],
  [6, 11, 3, 6, 3, 5, 2, 10, 3, 10, 5, 3, m1, m1, m1, m1],
  [5, 8, 9, 5, 2, 8, 5, 6, 2, 3, 8, 2, m1, m1, m1, m1],
  [9, 5, 6, 9, 6, 0, 0, 6, 2, m1, m1, m1, m1, m1, m1, m1],
  [1, 5, 8, 1, 8, 0, 5, 6, 8, 3, 8, 2, 6, 2, 8, m1],
  [1, 5, 6, 2, 1, 6, m1, m1, m1, m1, m1, m1, m1, m1, m1, m1],
  [1, 3, 6, 1, 6, 10, 3, 8, 6, 5, 6, 9, 8, 9, 6, m1],
  [10, 1, 0, 10, 0, 6, 9, 5, 0, 5, 6, 0, m1, m1, m1, m1],
  [0, 3, 8, 5, 6, 10, m1, m1, m1, m1, m1, m1, m1, m1, m1, m1],
  [10, 5, 6, m1, m1, m1, m1, m1, m1, m1, m1, m1, m1, m1, m1, m1],
  [11, 5, 10, 7, 5, 11, m1, m1, m1, m1, m1, m1, m1, m1, m1, m1],
  [11, 5, 10, 11, 7, 5, 8, 3, 0, m1, m1, m1, m1, m1, m1, m1],
  [5, 11, 7, 5, 10, 11, 1, 9, 0, m1, m1, m1, m1, m1, m1, m1],
  [10, 7, 5, 10, 11, 7, 9, 8, 1, 8, 3, 1, m1, m1, m1, m1],
  [11, 1, 2, 11, 7, 1, 7, 5, 1, m1, m1, m1, m1, m1, m1, m1],
  [0, 8, 3, 1, 2, 7, 1, 7, 5, 7, 2, 11, m1, m1, m1, m1],
  [9, 7, 5, 9, 2, 7, 9, 0, 2, 2, 11, 7, m1, m1, m1, m1],
  [7, 5, 2, 7, 2, 11, 5, 9, 2, 3, 2, 8, 9, 8, 2, m1],
  [2, 5, 10, 2, 3, 5, 3, 7, 5, m1, m1, m1, m1, m1, m1, m1],
  [8, 2, 0, 8, 5, 2, 8, 7, 5, 10, 2, 5, m1, m1, m1, m1],
  [9, 0, 1, 5, 10, 3, 5, 3, 7, 3, 10, 2, m1, m1, m1, m1],
  [9, 8, 2, 9, 2, 1, 8, 7, 2, 10, 2, 5, 7, 5, 2, m1],
  [1, 3, 5, 3, 7, 5, m1, m1, m1, m1, m1, m1, m1, m1, m1, m1],
  [0, 8, 7, 0, 7, 1, 1, 7, 5, m1, m1, m1, m1, m1, m1, m1],
  [9, 0, 3, 9, 3, 5, 5, 3, 7, m1, m1, m1, m1, m1, m1, m1],
  [9, 8, 7, 5, 9, 7, m1, m1, m1, m1, m1, m1, m1, m1, m1, m1],
  [5, 8, 4, 5, 10, 8, 10, 11, 8, m1, m1, m1, m1, m1, m1, m1],
  [5, 0, 4, 5, 11, 0, 5, 10, 11, 11, 3, 0, m1, m1, m1, m1],
  [0, 1, 9, 8, 4, 10, 8, 10, 11, 10, 4, 5, m1, m1, m1, m1],
  [10, 11, 4, 10, 4, 5, 11, 3, 4, 9, 4, 1, 3, 1, 4, m1],
  [2, 5, 1, 2, 8, 5, 2, 11, 8, 4, 5, 8, m1, m1, m1, m1],
  [0, 4, 11, 0, 11, 3, 4, 5, 11, 2, 11, 1, 5, 1, 11, m1],
  [0, 2, 5, 0, 5, 9, 2, 11, 5, 4, 5, 8, 11, 8, 5, m1],
  [9, 4, 5, 2, 11, 3, m1, m1, m1, m1, m1, m1, m1, m1, m1, m1],
  [2, 5, 10, 3, 5, 2, 3, 4, 5, 3, 8, 4, m1, m1, m1, m1],
  [5, 10, 2, 5, 2, 4, 4, 2, 0, m1, m1, m1, m1, m1, m1, m1],
  [3, 10, 2, 3, 5, 10, 3, 8, 5, 4, 5, 8, 0, 1, 9, m1],
  [5, 10, 2, 5, 2, 4, 1, 9, 2, 9, 4, 2, m1, m1, m1, m1],
  [8, 4, 5, 8, 5, 3, 3, 5, 1, m1, m1, m1, m1, m1, m1, m1],
  [0, 4, 5, 1, 0, 5, m1, m1, m1, m1, m1, m1, m1, m1, m1, m1],
  [8, 4, 5, 8, 5, 3, 9, 0, 5, 0, 3, 5, m1, m1, m1, m1],
  [9, 4, 5, m1, m1, m1, m1, m1, m1, m1, m1, m1, m1, m1, m1, m1],
  [4, 11, 7, 4, 9, 11, 9, 10, 11, m1, m1, m1, m1, m1, m1, m1],
  [0, 8, 3, 4, 9, 7, 9, 11, 7, 9, 10, 11, m1, m1, m1, m1],
  [1, 10, 11, 1, 11, 4, 1, 4, 0, 7, 4, 11, m1, m1, m1, m1],
  [3, 1, 4, 3, 4, 8, 1, 10, 4, 7, 4, 11, 10, 11, 4, m1],
  [4, 11, 7, 9, 11, 4, 9, 2, 11, 9, 1, 2, m1, m1, m1, m1],
  [9, 7, 4, 9, 11, 7, 9, 1, 11, 2, 11, 1, 0, 8, 3, m1],
  [11, 7, 4, 11, 4, 2, 2, 4, 0, m1, m1, m1, m1, m1, m1, m1],
  [11, 7, 4, 11, 4, 2, 8, 3, 4, 3, 2, 4, m1, m1, m1, m1],
  [2, 9, 10, 2, 7, 9, 2, 3, 7, 7, 4, 9, m1, m1, m1, m1],
  [9, 10, 7, 9, 7, 4, 10, 2, 7, 8, 7, 0, 2, 0, 7, m1],
  [3, 7, 10, 3, 10, 2, 7, 4, 10, 1, 10, 0, 4, 0, 10, m1],
  [1, 10, 2, 8, 7, 4, m1, m1, m1, m1, m1, m1, m1, m1, m1, m1],
  [4, 9, 1, 4, 1, 7, 7, 1, 3, m1, m1, m1, m1, m1, m1, m1],
  [4, 9, 1, 4, 1, 7, 0, 8, 1, 8, 7, 1, m1, m1, m1, m1],
  [4, 0, 3, 7, 4, 3, m1, m1, m1, m1, m1, m1, m1, m1, m1, m1],
  [4, 8, 7, m1, m1, m1, m1, m1, m1, m1, m1, m1, m1, m1, m1, m1],
  [9, 10, 8, 10, 11, 8, m1, m1, m1, m1, m1, m1, m1, m1, m1, m1],
  [3, 0, 9, 3, 9, 11, 11, 9, 10, m1, m1, m1, m1, m1, m1, m1],
  [0, 1, 10, 0, 10, 8, 8, 10, 11, m1, m1, m1, m1, m1, m1, m1],
  [3, 1, 10, 11, 3, 10, m1, m1, m1, m1, m1, m1, m1, m1, m1, m1],
  [1, 2, 11, 1, 11, 9, 9, 11, 8, m1, m1, m1, m1, m1, m1, m1],
  [3, 0, 9, 3, 9, 11, 1, 2, 9, 2, 11, 9, m1, m1, m1, m1],
  [0, 2, 11, 8, 0, 11, m1, m1, m1, m1, m1, m1, m1, m1, m1, m1],
  [3, 2, 11, m1, m1, m1, m1, m1, m1, m1, m1, m1, m1, m1, m1, m1],
  [2, 3, 8, 2, 8, 10, 10, 8, 9, m1, m1, m1, m1, m1, m1, m1],
  [9, 10, 2, 0, 9, 2, m1, m1, m1, m1, m1, m1, m1, m1, m1, m1],
  [2, 3, 8, 2, 8, 10, 0, 1, 8, 1, 10, 8, m1, m1, m1, m1],
  [1, 10, 2, m1, m1, m1, m1, m1, m1, m1, m1, m1, m1, m1, m1, m1],
  [1, 3, 8, 9, 1, 8, m1, m1, m1, m1, m1, m1, m1, m1, m1, m1],
  [0, 9, 1, m1, m1, m1, m1, m1, m1, m1, m1, m1, m1, m1, m1, m1],
  [0, 3, 8, m1, m1, m1, m1, m1, m1, m1, m1, m1, m1, m1, m1, m1],
  [m1, m1, m1, m1, m1, m1, m1, m1, m1, m1, m1, m1, m1, m1, m1, m1]]

/-- The 8 cube corner scalar values read by split_voxel for the cube based at
block index `b` (cube_values[i] in mcx_svmc.cu): corner `i` reads the smoothed
field at `b + cube_vertices_local[i]`. -/
def cubeValues (field : Idx3 → ℚ) (b : Idx3) : ℕ → ℚ :=
  fun i => field (iadd b (cube_vertices_local i))

/-- The marching-cubes configuration index computed by split_voxel: bit `i` is
set when corner `i` is strictly below the isovalue. -/
def cube_index (cv : ℕ → ℚ) : ℕ :=
  (List.range 8).foldl (fun acc i => if cv i < MCX_SVMC_ISOVALUE then acc ||| (1 <<< i) else acc) 0

/-- Edge interpolation (interpolate of mcx_svmc.cu): the crossing point of the
isosurface on the segment from `a` to `b`, degenerating to `a` when the two
endpoint values coincide. -/
def interpolate (a b : Vec3) (a_val b_val isovalue : ℚ) : Vec3 :=
  if b_val = a_val then a
  else vadd b (smul ((isovalue - b_val) / (a_val - b_val)) (vsub a b))

/-- The isosurface vertex on edge `i` (isosurface_vertices[i] of split_voxel);
edges not intersected by the isosurface are left uninitialised by the kernel
and modelled as the zero vector (the triangle table never references them). -/
def isosurfaceVertex (cv : ℕ → ℚ) (mask : ℕ) (i : ℕ) : Vec3 :=
  if (mask >>> i) &&& 1 = 1 then
    interpolate (vecOfIdx (cube_vertices_local (edge_vertices i).1))
      (vecOfIdx (cube_vertices_local (edge_vertices i).2))
      (cv (edge_vertices i).1) (cv (edge_vertices i).2) MCX_SVMC_ISOVALUE
  else (0, 0, 0)

/-- The triangle loop bound of split_voxel: consume a triangle-table row three
entries at a time, stopping at the -1 sentinel. -/
def triFan : List ℤ → List (ℤ × ℤ × ℤ)
  | a :: b :: c :: rest => if a = -1 then [] else (a, b, c) :: triFan rest
  | _ => []

/-- The cross product AB x AC of one triangle of split_voxel. -/
def triCross (verts : ℕ → Vec3) (t : ℤ × ℤ × ℤ) : Vec3 :=
  cross (vsub (verts t.2.1.toNat) (verts t.1.toNat))
    (vsub (verts t.2.2.toNat) (verts t.1.toNat))

/-- The triangle area of split_voxel: 0.5 * length(AB x AC), with `sq`
standing for sqrtf. -/
def triArea (sq : ℚ → ℚ) (verts : ℕ → Vec3) (t : ℤ × ℤ × ℤ) : ℚ :=
  1 / 2 * sq (dot (triCross verts t) (triCross verts t))

/-- The triangle centroid of split_voxel: the mean of the three vertices. -/
def triCentroid (verts : ℕ → Vec3) (t : ℤ × ℤ × ℤ) : Vec3 :=
  smul (1 / 3) (vadd (vadd (verts t.1.toNat) (verts t.2.1.toNat)) (verts t.2.2.toNat))

/-- One iteration of the triangle loop of split_voxel: compute the triangle's
unit normal by the unguarded division 0.5 * AB_x_AC / triangle_area and add
the area-weighted normal and centroid contributions and the area itself to
the accumulator (total area, normal sum, centroid sum). -/
def triStep (sq : ℚ → ℚ) (verts : ℕ → Vec3) (acc : ℚ × Vec3 × Vec3) (t : ℤ × ℤ × ℤ) :
    Option (ℚ × Vec3 × Vec3) :=
  match divV3 (smul (1 / 2) (triCross verts t)) (triArea sq verts t) with
  | none => none
  | some tn =>
      some (acc.1 + triArea sq verts t,
        vadd acc.2.1 (smul (triArea sq verts t) tn),
        vadd acc.2.2 (smul (triArea sq verts t) (triCentroid verts t)))

/-- The full triangle loop of split_voxel over a list of triangles. -/
def accumTris (sq : ℚ → ℚ) (verts : ℕ → Vec3) :
    List (ℤ × ℤ × ℤ) → ℚ × Vec3 × Vec3 → Option (ℚ × Vec3 × Vec3)
  | [], acc => some acc
  | t :: ts, acc =>
      match triStep sq verts acc t with
      | none => none
      | some acc2 => accumTris sq verts ts acc2

/-- The geometric part of split_voxel for one cube of corner values: the
area-averaged centroid and the negated area-averaged normal
(isosurface_centroid and isosurface_normal after the final divisions by
isosurface_area).  A `none` result means one of the unguarded float divisions
divided by zero, i.e. the kernel produced NaN values. -/
def geomOfCube (sq : ℚ → ℚ) (cv : ℕ → ℚ) : Option (Vec3 × Vec3) :=
  match accumTris sq (isosurfaceVertex cv (edge_intersections.getD (cube_index cv) 0))
      (triFan (triangle_vertices.getD (cube_index cv) [])) (0, (0, 0, 0), (0, 0, 0)) with
  | none => none
  | some acc =>
      match divV3 (vneg acc.2.1) acc.1, divV3 acc.2.2 acc.1 with
      | some n, some c => some (c, n)
      | _, _ => none

/-- The byte-addressed view of the output buffer unsigned char* new_vol. -/
abbrev ByteState := ℕ → ℕ

/-- A 32-bit word of the output buffer, assembled from its four bytes
(the read temp[w] with temp = (unsigned int*)new_vol); the kernel only ever
tests it against zero, which is endianness independent. -/
def word_at (s : ByteState) (w : ℕ) : ℕ :=
  s (4 * w) + 256 * s (4 * w + 1) + 65536 * s (4 * w + 2) + 16777216 * s (4 * w + 3)

/-- The quantised normal byte written by split_voxel:
min((unsigned char)floorf((n + 1) * 255 * 0.5), 254).  The cast of a
nonnegative in-range float to unsigned char is its floor; the model reduces
the (undefined-behaviour) out-of-range cast modulo 256. -/
def quantNormalByte (n : ℚ) : ℕ :=
  min ((Int.toNat ⌊(n + 1) * 255 * (1 / 2)⌋) % 256) 254

/-- The quantised centroid byte written by split_voxel:
(unsigned char)(c * 255), i.e. truncation of a nonnegative in-range float;
the model reduces the (undefined-behaviour) out-of-range cast modulo 256. -/
def quantCentroidByte (c : ℚ) : ℕ :=
  (Int.toNat ⌊c * 255⌋) % 256

/-- The first-label write path of split_voxel (lines writing bytes[7], [5],
[4], [3], [2], [1], [0] of the voxel's two words): store the lower label, the
quantised centroid and the quantised normal.  When the geometry computation
produced NaN values (`none`), the C cast of NaN to unsigned char is
unspecified; the model writes 0 (no theorem depends on this choice). -/
def writeGeometry (sq : ℚ → ℚ) (field : Idx3 → ℚ) (label : ℕ) (b : Idx3)
    (idx len : ℕ) (s : ByteState) : ByteState :=
  let g := geomOfCube sq (cubeValues field b)
  let cx := match g with | some p => quantCentroidByte p.1.1 | none => 0
  let cy := match g with | some p => quantCentroidByte p.1.2.1 | none => 0
  let cz := match g with | some p => quantCentroidByte p.1.2.2 | none => 0
  let nx := match g with | some p => quantNormalByte p.2.1 | none => 0
  let ny := match g with | some p => quantNormalByte p.2.2.1 | none => 0
  let nz := match g with | some p => quantNormalByte p.2.2.2 | none => 0
  Function.update (Function.update (Function.update (Function.update
    (Function.update (Function.update (Function.update s
      (4 * idx) (label % 256))
      (4 * idx + 2) cx)
      (4 * idx + 3) cy)
      (4 * (idx + len)) cz)
      (4 * (idx + len) + 1) nx)
      (4 * (idx + len) + 2) ny)
      (4 * (idx + len) + 3) nz

/-- The voxel processed by the split_voxel instance at block index `b`:
cube_idx3d = blockIdx + make_uint3(1,1,1). -/
def voxelOfBlock (b : Idx3) : Idx3 := iadd b (1, 1, 1)

/-- One invocation of the split_voxel kernel at block index `b` (the grid has
extent dim - 1 per axis, so the processed voxel is `b + (1,1,1)` and the
volume dimension is gridDim + (1,1,1) = dim).  If the cube configuration is
trivial the state is untouched; if the voxel's second word is already nonzero
only the upper-label byte (bytes[6]) is written; otherwise the lower label and
the quantised geometry are written. -/
def split_voxel (sq : ℚ → ℚ) (field : Idx3 → ℚ) (label : ℕ) (dim : Idx3)
    (b : Idx3) (s : ByteState) : ByteState :=
  let ci := cube_index (cubeValues field b)
  if ci = 0 ∨ ci = 255 then s
  else
    let idx := flatten_3d_to_1d (voxelOfBlock b) dim
    let len := dim.1 * dim.2.1 * dim.2.2
    if word_at s (idx + len) ≠ 0 then Function.update s (4 * idx + 1) (label % 256)
    else writeGeometry sq field label b idx len s

/-- All 3-D indices of an `a × b × c` iteration domain, x outermost. -/
def tripleRange (a b c : ℕ) : List Idx3 :=
  (List.range a).flatMap fun i =>
    (List.range b).flatMap fun j =>
      (List.range c).map fun k => (i, j, k)

/-- One grid-wide launch of split_voxel: the host launches the kernel on a
(dimx-1) × (dimy-1) × (dimz-1) grid; all block instances write disjoint
records, so the sequential fold represents any execution order. -/
def split_voxel_pass (sq : ℚ → ℚ) (field : Idx3 → ℚ) (label : ℕ) (dim : Idx3)
    (s : ByteState) : ByteState :=
  (tripleRange (dim.1 - 1) (dim.2.1 - 1) (dim.2.2 - 1)).foldl
    (fun s b => split_voxel sq field label dim b s) s

/-- A sequential pass of writes over a flat array: fold a list of loop indices,
writing `val s x` at address `addr x` (the value may read the current state,
as the replicate-padding passes do). -/
def writeFold {α : Type} (l : List α) (addr : α → ℕ) (val : ByteState → α → ℕ)
    (s : ByteState) : ByteState :=
  l.foldl (fun s x => Function.update s (addr x) (val s x)) s

/-- Modelled from the spec: the label mask MED_MASK (`label = cell & LABEL_MASK`)
is defined in mcx_const.h, which is not among the provided sources; the write
into an unsigned char truncates modulo 256 regardless, and no theorem below
depends on the value of this constant. -/
def MED_MASK : ℕ := 65535

/-- One grid-wide launch of the init_lower_label kernel: seed bytes[7] of every
voxel record with the voxel's original label. -/
def init_lower_label (vol : ℕ → ℕ) (len : ℕ) (s : ByteState) : ByteState :=
  writeFold (List.range len) (fun i => 4 * i) (fun _ i => (vol i &&& MED_MASK) % 256) s

/-- The device-side preprocessing pipeline producing the new volume's bytes:
zero initialisation (cudaMemset), the lower-label seeding pass, then one
split_voxel pass per label 0..medianum-1 over that label's smoothed field. -/
def svmcNewVolume (sq : ℚ → ℚ) (fields : ℕ → Idx3 → ℚ) (vol : ℕ → ℕ)
    (dim : Idx3) (medianum : ℕ) : ByteState :=
  (List.range medianum).foldl
    (fun s label => split_voxel_pass sq (fields label) label dim s)
    (init_lower_label vol (dim.1 * dim.2.1 * dim.2.2) (fun _ => 0))

/-- The Config fields read and written by mcx_svmc_preprocess. -/
structure Config where
  vol : List ℕ
  dim : Idx3
  medianum : ℕ
  mediabyte : ℕ
  srcpos : Vec3

/-- Modelled from the spec: the sentinel MEDIA_2LABEL_SPLIT marking the
sub-voxel dual-label split volume format is defined in mcx_const.h, which is
not among the provided sources; the theorems below only use it by name. -/
def MEDIA_2LABEL_SPLIT : ℕ := 99

/-- The downloaded new volume as a list of 2 * len 32-bit words. -/
def encodeWords (s : ByteState) (len : ℕ) : List ℕ :=
  (List.range (2 * len)).map (word_at s)

/-- The host function mcx_svmc_preprocess: a no-op when mediabyte > 4;
otherwise replace the volume by the encoded two-word-per-voxel volume, set
mediabyte to MEDIA_2LABEL_SPLIT and shift the source position by +0.5 per
axis.  The external detector-mask rebuild (mcx_maskdet) and all GPU resource
management are out of scope per the specification. -/
def mcx_svmc_preprocess (sq : ℚ → ℚ) (fields : ℕ → Idx3 → ℚ) (cfg : Config) : Config :=
  if cfg.mediabyte > 4 then cfg
  else
    let len := cfg.dim.1 * cfg.dim.2.1 * cfg.dim.2.2
    { cfg with
      vol := encodeWords (svmcNewVolume sq fields (fun i => cfg.vol.getD i 0) cfg.dim cfg.medianum) len
      mediabyte := MEDIA_2LABEL_SPLIT
      srcpos := (cfg.srcpos.1 + 1 / 2, cfg.srcpos.2.1 + 1 / 2, cfg.srcpos.2.2 + 1 / 2) }

/-- The interior copy loop of pad_replicate_volume: copy the original volume
into the centre of the zero-initialised padded array. -/
def padCopy (vol : ℕ → ℕ) (p dx dy dz : ℕ) (s : ByteState) : ByteState :=
  writeFold (tripleRange dx dy dz)
    (fun x => flatten_3d_to_1d (p + x.1, p + x.2.1, p + x.2.2) (dx + 2 * p, dy + 2 * p, 0))
    (fun _ x => vol (flatten_3d_to_1d x (dx, dy, 0))) s

/-- The pad-along--x loop: for i = p-1 down to 0 replicate slice i+1. -/
def padNegX (p ndx ndy ndz : ℕ) (s : ByteState) : ByteState :=
  writeFold
    (((List.range p).reverse).flatMap fun i =>
      (List.range ndy).flatMap fun j => (List.range ndz).map fun k => (i, j, k))
    (fun x => flatten_3d_to_1d x (ndx, ndy, 0))
    (fun s x => s (flatten_3d_to_1d (x.1 + 1, x.2.1, x.2.2) (ndx, ndy, 0))) s

/-- The pad-along-+x loop: for i = ndx-p to ndx-1 replicate slice i-1. -/
def padPosX (p ndx ndy ndz : ℕ) (s : ByteState) : ByteState :=
  writeFold
    (((List.range p).map (fun t => ndx - p + t)).flatMap fun i =>
      (List.range ndy).flatMap fun j => (List.range ndz).map fun k => (i, j, k))
    (fun x => flatten_3d_to_1d x (ndx, ndy, 0))
    (fun s x => s (flatten_3d_to_1d (x.1 - 1, x.2.1, x.2.2) (ndx, ndy, 0))) s

/-- The pad-along--y loop: for j = p-1 down to 0 replicate slice j+1. -/
def padNegY (p ndx ndy ndz : ℕ) (s : ByteState) : ByteState :=
  writeFold
    (((List.range p).reverse).flatMap fun j =>
      (List.range ndx).flatMap fun i => (List.range ndz).map fun k => (i, j, k))
    (fun x => flatten_3d_to_1d x (ndx, ndy, 0))
    (fun s x => s (flatten_3d_to_1d (x.1, x.2.1 + 1, x.2.2) (ndx, ndy, 0))) s

/-- The pad-along-+y loop: for j = ndy-p to ndy-1 replicate slice j-1. -/
def padPosY (p ndx ndy ndz : ℕ) (s : ByteState) : ByteState :=
  writeFold
    (((List.range p).map (fun t => ndy - p + t)).flatMap fun j =>
      (List.range ndx).flatMap fun i => (List.range ndz).map fun k => (i, j, k))
    (fun x => flatten_3d_to_1d x (ndx, ndy, 0))
    (fun s x => s (flatten_3d_to_1d (x.1, x.2.1 - 1, x.2.2) (ndx, ndy, 0))) s

/-- The pad-along--z loop: for k = p-1 down to 0 replicate slice k+1. -/
def padNegZ (p ndx ndy ndz : ℕ) (s : ByteState) : ByteState :=
  writeFold
    (((List.range p).reverse).flatMap fun k =>
      (List.range ndx).flatMap fun i => (List.range ndy).map fun j => (i, j, k))
    (fun x => flatten_3d_to_1d x (ndx, ndy, 0))
    (fun s x => s (flatten_3d_to_1d (x.1, x.2.1, x.2.2 + 1) (ndx, ndy, 0))) s

/-- The pad-along-+z loop: for k = ndz-p to ndz-1 replicate slice k-1. -/
def padPosZ (p ndx ndy ndz : ℕ) (s : ByteState) : ByteState :=
  writeFold
    (((List.range p).map (fun t => ndz - p + t)).flatMap fun k =>
      (List.range ndx).flatMap fun i => (List.range ndy).map fun j => (i, j, k))
    (fun x => flatten_3d_to_1d x (ndx, ndy, 0))
    (fun s x => s (flatten_3d_to_1d (x.1, x.2.1, x.2.2 - 1) (ndx, ndy, 0))) s

/-- The host function pad_replicate_volume: allocate a zeroed
(dimx+2p) × (dimy+2p) × (dimz+2p) array (calloc), copy the volume into the
interior, then replicate along -x, +x, -y, +y, -z, +z in that order, each pass
reading the adjacent already-filled slice. -/
def pad_replicate_volume (vol : ℕ → ℕ) (pad_size dimx dimy dimz : ℕ) : ℕ → ℕ :=
  padPosZ pad_size (dimx + 2 * pad_size) (dimy + 2 * pad_size) (dimz + 2 * pad_size)
    (padNegZ pad_size (dimx + 2 * pad_size) (dimy + 2 * pad_size) (dimz + 2 * pad_size)
      (padPosY pad_size (dimx + 2 * pad_size) (dimy + 2 * pad_size) (dimz + 2 * pad_size)
        (padNegY pad_size (dimx + 2 * pad_size) (dimy + 2 * pad_size) (dimz + 2 * pad_size)
          (padPosX pad_size (dimx + 2 * pad_size) (dimy + 2 * pad_size) (dimz + 2 * pad_size)
            (padNegX pad_size (dimx + 2 * pad_size) (dimy + 2 * pad_size) (dimz + 2 * pad_size)
              (padCopy vol pad_size dimx dimy dimz (fun _ => 0)))))))

/-- Values at addresses never written by a write pass are unchanged. -/
lemma writeFold_frame {α : Type} (l : List α) (addr : α → ℕ) (val : ByteState → α → ℕ)
    (s : ByteState) (a : ℕ) (h : ∀ x ∈ l, addr x ≠ a) :
    writeFold l addr val s a = s a := by
  induction l generalizing s with
  | nil => rfl
  | cons x xs ih =>
      have hx : addr x ≠ a := h x (List.mem_cons_self x xs)
      have hxs : ∀ y ∈ xs, addr y ≠ a := fun y hy => h y (List.mem_cons_of_mem x hy)
      calc writeFold (x :: xs) addr val s a
          = writeFold xs addr val (Function.update s (addr x) (val s x)) a := rfl
        _ = Function.update s (addr x) (val s x) a := ih _ hxs
        _ = s a := Function.update_noteq (fun he => hx he.symm) _ _

/-- If every write to the address of `x0` stores the same state-independent
value, a pass containing `x0` leaves that value at that address. -/
lemma writeFold_write {α : Type} (l : List α) (addr : α → ℕ) (w : α → ℕ)
    (s : ByteState) (x0 : α) (hx0 : x0 ∈ l)
    (huniq : ∀ x ∈ l, addr x = addr x0 → w x = w x0) :
    writeFold l addr (fun _ x => w x) s (addr x0) = w x0 := by
  induction l generalizing s x0 with
  | nil => cases hx0
  | cons x xs ih =>
      by_cases hxs : ∃ y ∈ xs, addr y = addr x0
      · obtain ⟨y, hy, hay⟩ := hxs
        have huy : ∀ z ∈ xs, addr z = addr y → w z = w y := by
          intro z hz haz
          have h1 : w z = w x0 :=
            huniq z (List.mem_cons_of_mem x hz) (haz.trans hay)
          have h2 : w y = w x0 := huniq y (List.mem_cons_of_mem x hy) hay
          rw [h1, h2]
        have hwy : w y = w x0 := huniq y (List.mem_cons_of_mem x hy) hay
        have hr := ih (Function.update s (addr x) (w x)) y hy huy
        calc writeFold (x :: xs) addr (fun _ x => w x) s (addr x0)
            = writeFold xs addr (fun _ x => w x)
                (Function.update s (addr x) (w x)) (addr x0) := rfl
          _ = writeFold xs addr (fun _ x => w x)
                (Function.update s (addr x) (w x)) (addr y) := by rw [hay]
          _ = w y := hr
          _ = w x0 := hwy
      · push_neg at hxs
        have hx : x0 = x := by
          rcases List.mem_cons.mp hx0 with h | h
          · exact h
          · exact absurd rfl (hxs x0 h)
        calc writeFold (x :: xs) addr (fun _ x => w x) s (addr x0)
            = writeFold xs addr (fun _ x => w x)
                (Function.update s (addr x) (w x)) (addr x0) := rfl
          _ = Function.update s (addr x) (w x) (addr x0) :=
              writeFold_frame _ _ _ _ _ (fun y hy => hxs y hy)
          _ = w x0 := by rw [hx, Function.update_same]

/-- A fold whose every step fixes the value at an address fixes that value. -/
lemma foldl_fix {α : Type} (l : List α) (f : ByteState → α → ByteState)
    (s : ByteState) (a : ℕ) (h : ∀ x ∈ l, ∀ s1, f s1 x a = s1 a) :
    l.foldl f s a = s a := by
  induction l generalizing s with
  | nil => rfl
  | cons x xs ih =>
      calc (x :: xs).foldl f s a = xs.foldl f (f s x) a := rfl
        _ = f s x a := ih _ (fun y hy => h y (List.mem_cons_of_mem x hy))
        _ = s a := h x (List.mem_cons_self x xs) s

/-- Cancellation of a flat index decomposition with a bounded remainder. -/
lemma add_mul_inj (d x1 x2 q1 q2 : ℕ) (hx1 : x1 < d) (hx2 : x2 < d)
    (he : x1 + d * q1 = x2 + d * q2) : x1 = x2 ∧ q1 = q2 := by
  have h1 : (x1 + d * q1) % d = x1 := by
    rw [Nat.add_mul_mod_self_left, Nat.mod_eq_of_lt hx1]
  have h2 : (x2 + d * q2) % d = x2 := by
    rw [Nat.add_mul_mod_self_left, Nat.mod_eq_of_lt hx2]
  have hx : x1 = x2 := by rw [← h1, ← h2, he]
  refine ⟨hx, ?_⟩
  have hq : d * q1 = d * q2 := by omega
  exact Nat.eq_of_mul_eq_mul_left (by omega) hq

/-- The flat index is the base-dim positional encoding. -/
lemma flatten_decomp (v dim : Idx3) :
    flatten_3d_to_1d v dim = v.1 + dim.1 * (v.2.1 + dim.2.1 * v.2.2) := by
  unfold flatten_3d_to_1d
  ring

/-- The flat index of an in-range 3-D index determines the index. -/
lemma flatten_inj (v w dim : Idx3) (hv1 : v.1 < dim.1) (hw1 : w.1 < dim.1)
    (hv2 : v.2.1 < dim.2.1) (hw2 : w.2.1 < dim.2.1)
    (he : flatten_3d_to_1d v dim = flatten_3d_to_1d w dim) : v = w := by
  rw [flatten_decomp, flatten_decomp] at he
  obtain ⟨h1, hrest⟩ := add_mul_inj dim.1 v.1 w.1 _ _ hv1 hw1 he
  obtain ⟨h2, h3⟩ := add_mul_inj dim.2.1 v.2.1 w.2.1 _ _ hv2 hw2 hrest
  obtain ⟨a, b, c⟩ := v
  obtain ⟨d, e, f⟩ := w
  simp_all

/-- The flat index of an in-range 3-D index is below the volume length. -/
lemma flatten_lt (v dim : Idx3) (h1 : v.1 < dim.1) (h2 : v.2.1 < dim.2.1)
    (h3 : v.2.2 < dim.2.2) :
    flatten_3d_to_1d v dim < dim.1 * dim.2.1 * dim.2.2 := by
  rw [flatten_decomp]
  have ha : v.2.1 + dim.2.1 * v.2.2 + 1 ≤ dim.2.1 * dim.2.2 := by
    have hb : dim.2.1 * (v.2.2 + 1) ≤ dim.2.1 * dim.2.2 :=
      Nat.mul_le_mul (Nat.le_refl _) (Nat.succ_le_of_lt h3)
    have hc : dim.2.1 * (v.2.2 + 1) = dim.2.1 * v.2.2 + dim.2.1 := by ring
    omega
  have hd : dim.1 * (v.2.1 + dim.2.1 * v.2.2 + 1) ≤ dim.1 * (dim.2.1 * dim.2.2) :=
    Nat.mul_le_mul (Nat.le_refl _) ha
  have he : dim.1 * (v.2.1 + dim.2.1 * v.2.2 + 1)
      = dim.1 * (v.2.1 + dim.2.1 * v.2.2) + dim.1 := by ring
  have hf : dim.1 * (dim.2.1 * dim.2.2) = dim.1 * dim.2.1 * dim.2.2 := by ring
  omega

/-- Membership in a triple iteration domain is componentwise boundedness. -/
lemma mem_tripleRange (a b c : ℕ) (x : Idx3) :
    x ∈ tripleRange a b c ↔ x.1 < a ∧ x.2.1 < b ∧ x.2.2 < c := by
  obtain ⟨i, j, k⟩ := x
  simp only [tripleRange, List.mem_flatMap, List.mem_map, List.mem_range]
  constructor
  · rintro ⟨i1, hi1, j1, hj1, k1, hk1, he⟩
    simp only [Prod.mk.injEq] at he
    obtain ⟨e1, e2, e3⟩ := he
    subst e1; subst e2; subst e3
    exact ⟨hi1, hj1, hk1⟩
  · rintro ⟨h1, h2, h3⟩
    exact ⟨i, h1, j, h2, k, h3, rfl⟩

/-- The byte addresses of the two-word record of voxel `v`: the four bytes of
word `flatten v` and the four bytes of word `flatten v + len`. -/
def isRecordAddr (dim : Idx3) (v : Idx3) (a : ℕ) : Prop :=
  ∃ k, k < 4 ∧ (a = 4 * flatten_3d_to_1d v dim + k ∨
    a = 4 * (flatten_3d_to_1d v dim + dim.1 * dim.2.1 * dim.2.2) + k)

/-- Records of distinct in-range voxels occupy disjoint byte addresses. -/
lemma record_disjoint (dim v w : Idx3) (a : ℕ)
    (hv1 : v.1 < dim.1) (hv2 : v.2.1 < dim.2.1) (hv3 : v.2.2 < dim.2.2)
    (hw1 : w.1 < dim.1) (hw2 : w.2.1 < dim.2.1) (hw3 : w.2.2 < dim.2.2)
    (ha : isRecordAddr dim v a) (hb : isRecordAddr dim w a) : v = w := by
  obtain ⟨k1, hk1, h1⟩ := ha
  obtain ⟨k2, hk2, h2⟩ := hb
  have hfv := flatten_lt v dim hv1 hv2 hv3
  have hfw := flatten_lt w dim hw1 hw2 hw3
  have hinj : flatten_3d_to_1d v dim = flatten_3d_to_1d w dim → v = w :=
    fun he => flatten_inj v w dim hv1 hw1 hv2 hw2 he
  rcases h1 with h1 | h1 <;> rcases h2 with h2 | h2
  · refine hinj ?_
    have := add_mul_inj 4 k1 k2 (flatten_3d_to_1d v dim) (flatten_3d_to_1d w dim)
      hk1 hk2 (by omega)
    omega
  · exfalso
    have := add_mul_inj 4 k1 k2 (flatten_3d_to_1d v dim)
      (flatten_3d_to_1d w dim + dim.1 * dim.2.1 * dim.2.2) hk1 hk2 (by omega)
    omega
  · exfalso
    have := add_mul_inj 4 k1 k2 (flatten_3d_to_1d v dim + dim.1 * dim.2.1 * dim.2.2)
      (flatten_3d_to_1d w dim) hk1 hk2 (by omega)
    omega
  · refine hinj ?_
    have := add_mul_inj 4 k1 k2 (flatten_3d_to_1d v dim + dim.1 * dim.2.1 * dim.2.2)
      (flatten_3d_to_1d w dim + dim.1 * dim.2.1 * dim.2.2) hk1 hk2 (by omega)
    omega

/-- The kernel instance at a cube with a trivial configuration returns the
state unchanged. -/
lemma split_voxel_trivial (sq : ℚ → ℚ) (field : Idx3 → ℚ) (label : ℕ)
    (dim b : Idx3) (s : ByteState)
    (h : cube_index (cubeValues field b) = 0 ∨ cube_index (cubeValues field b) = 255) :
    split_voxel sq field label dim b s = s := by
  unfold split_voxel
  simp [h]

/-- With a nontrivial configuration and a nonzero second word, the kernel
instance writes exactly the upper-label byte. -/
lemma split_voxel_later (sq : ℚ → ℚ) (field : Idx3 → ℚ) (label : ℕ)
    (dim b : Idx3) (s : ByteState)
    (h0 : ¬ (cube_index (cubeValues field b) = 0 ∨ cube_index (cubeValues field b) = 255))
    (h1 : word_at s (flatten_3d_to_1d (voxelOfBlock b) dim + dim.1 * dim.2.1 * dim.2.2) ≠ 0) :
    split_voxel sq field label dim b s =
      Function.update s (4 * flatten_3d_to_1d (voxelOfBlock b) dim + 1) (label % 256) := by
  unfold split_voxel
  simp [h0, h1]

/-- With a nontrivial configuration and a zero second word, the kernel
instance performs the first-label geometry write. -/
lemma split_voxel_first (sq : ℚ → ℚ) (field : Idx3 → ℚ) (label : ℕ)
    (dim b : Idx3) (s : ByteState)
    (h0 : ¬ (cube_index (cubeValues field b) = 0 ∨ cube_index (cubeValues field b) = 255))
    (h1 : word_at s (flatten_3d_to_1d (voxelOfBlock b) dim + dim.1 * dim.2.1 * dim.2.2) = 0) :
    split_voxel sq field label dim b s =
      writeGeometry sq field label b (flatten_3d_to_1d (voxelOfBlock b) dim)
        (dim.1 * dim.2.1 * dim.2.2) s := by
  unfold split_voxel
  simp [h0, h1]

/-- A kernel instance only writes bytes of its own voxel's record. -/
lemma split_voxel_frame (sq : ℚ → ℚ) (field : Idx3 → ℚ) (label : ℕ)
    (dim b : Idx3) (s : ByteState) (a : ℕ)
    (hna : ¬ isRecordAddr dim (voxelOfBlock b) a) :
    split_voxel sq field label dim b s a = s a := by
  by_cases h0 : cube_index (cubeValues field b) = 0 ∨ cube_index (cubeValues field b) = 255
  · rw [split_voxel_trivial sq field label dim b s h0]
  · have hidx := flatten_3d_to_1d (voxelOfBlock b) dim
    by_cases h1 : word_at s (flatten_3d_to_1d (voxelOfBlock b) dim
        + dim.1 * dim.2.1 * dim.2.2) = 0
    · rw [split_voxel_first sq field label dim b s h0 h1]
      unfold writeGeometry
      have hne : ∀ k, k < 4 →
          a ≠ 4 * flatten_3d_to_1d (voxelOfBlock b) dim + k ∧
          a ≠ 4 * (flatten_3d_to_1d (voxelOfBlock b) dim + dim.1 * dim.2.1 * dim.2.2) + k := by
        intro k hk
        constructor
        · intro he
          exact hna ⟨k, hk, Or.inl he⟩
        · intro he
          exact hna ⟨k, hk, Or.inr he⟩
      rw [Function.update_noteq ((hne 3 (by omega)).2)]
      rw [Function.update_noteq ((hne 2 (by omega)).2)]
      rw [Function.update_noteq ((hne 1 (by omega)).2)]
      rw [Function.update_noteq (by simpa using (hne 0 (by omega)).2)]
      rw [Function.update_noteq ((hne 3 (by omega)).1)]
      rw [Function.update_noteq ((hne 2 (by omega)).1)]
      rw [Function.update_noteq (by simpa using (hne 0 (by omega)).1)]
    · rw [split_voxel_later sq field label dim b s h0 h1]
      exact Function.update_noteq ((fun he => hna ⟨1, by omega, Or.inl he⟩)) _ _

/-- Distinct in-range 3-D indices have distinct flat indices. -/
lemma flatten_ne_of_ne (v w dim : Idx3) (hv1 : v.1 < dim.1) (hw1 : w.1 < dim.1)
    (hv2 : v.2.1 < dim.2.1) (hw2 : w.2.1 < dim.2.1) (hne : v ≠ w) :
    flatten_3d_to_1d v dim ≠ flatten_3d_to_1d w dim :=
  fun he => hne (flatten_inj v w dim hv1 hw1 hv2 hw2 he)

/-- The -x padding pass does not touch addresses outside its slab. -/
lemma padNegX_frame (p ndx ndy ndz : ℕ) (s : ByteState) (a : ℕ)
    (h : ∀ x : Idx3, x.1 < p → x.2.1 < ndy → x.2.2 < ndz →
      flatten_3d_to_1d x (ndx, ndy, 0) ≠ a) :
    padNegX p ndx ndy ndz s a = s a := by
  apply writeFold_frame
  intro x hx
  simp only [List.mem_flatMap, List.mem_map, List.mem_reverse, List.mem_range] at hx
  obtain ⟨i1, hi1, j1, hj1, k1, hk1, rfl⟩ := hx
  exact h _ hi1 hj1 hk1

/-- The +x padding pass does not touch addresses outside its slab. -/
lemma padPosX_frame (p ndx ndy ndz : ℕ) (s : ByteState) (a : ℕ)
    (h : ∀ x : Idx3, (∃ t, t < p ∧ x.1 = ndx - p + t) → x.2.1 < ndy → x.2.2 < ndz →
      flatten_3d_to_1d x (ndx, ndy, 0) ≠ a) :
    padPosX p ndx ndy ndz s a = s a := by
  apply writeFold_frame
  intro x hx
  simp only [List.mem_flatMap, List.mem_map, List.mem_range] at hx
  obtain ⟨i1, ⟨t, ht, rfl⟩, j1, hj1, k1, hk1, rfl⟩ := hx
  exact h _ ⟨t, ht, rfl⟩ hj1 hk1

/-- The -y padding pass does not touch addresses outside its slab. -/
lemma padNegY_frame (p ndx ndy ndz : ℕ) (s : ByteState) (a : ℕ)
    (h : ∀ x : Idx3, x.1 < ndx → x.2.1 < p → x.2.2 < ndz →
      flatten_3d_to_1d x (ndx, ndy, 0) ≠ a) :
    padNegY p ndx ndy ndz s a = s a := by
  apply writeFold_frame
  intro x hx
  simp only [List.mem_flatMap, List.mem_map, List.mem_reverse, List.mem_range] at hx
  obtain ⟨j1, hj1, i1, hi1, k1, hk1, rfl⟩ := hx
  exact h _ hi1 hj1 hk1

/-- The +y padding pass does not touch addresses outside its slab. -/
lemma padPosY_frame (p ndx ndy ndz : ℕ) (s : ByteState) (a : ℕ)
    (h : ∀ x : Idx3, x.1 < ndx → (∃ t, t < p ∧ x.2.1 = ndy - p + t) → x.2.2 < ndz →
      flatten_3d_to_1d x (ndx, ndy, 0) ≠ a) :
    padPosY p ndx ndy ndz s a = s a := by
  apply writeFold_frame
  intro x hx
  simp only [List.mem_flatMap, List.mem_map, List.mem_range] at hx
  obtain ⟨j1, ⟨t, ht, rfl⟩, i1, hi1, k1, hk1, rfl⟩ := hx
  exact h _ hi1 ⟨t, ht, rfl⟩ hk1

/-- The -z padding pass does not touch addresses outside its slab. -/
lemma padNegZ_frame (p ndx ndy ndz : ℕ) (s : ByteState) (a : ℕ)
    (h : ∀ x : Idx3, x.1 < ndx → x.2.1 < ndy → x.2.2 < p →
      flatten_3d_to_1d x (ndx, ndy, 0) ≠ a) :
    padNegZ p ndx ndy ndz s a = s a := by
  apply writeFold_frame
  intro x hx
  simp only [List.mem_flatMap, List.mem_map, List.mem_reverse, List.mem_range] at hx
  obtain ⟨k1, hk1, i1, hi1, j1, hj1, rfl⟩ := hx
  exact h _ hi1 hj1 hk1

/-- The +z padding pass does not touch addresses outside its slab. -/
lemma padPosZ_frame (p ndx ndy ndz : ℕ) (s : ByteState) (a : ℕ)
    (h : ∀ x : Idx3, x.1 < ndx → x.2.1 < ndy → (∃ t, t < p ∧ x.2.2 = ndz - p + t) →
      flatten_3d_to_1d x (ndx, ndy, 0) ≠ a) :
    padPosZ p ndx ndy ndz s a = s a := by
  apply writeFold_frame
  intro x hx
  simp only [List.mem_flatMap, List.mem_map, List.mem_range] at hx
  obtain ⟨k1, ⟨t, ht, rfl⟩, i1, hi1, j1, hj1, rfl⟩ := hx
  exact h _ hi1 hj1 ⟨t, ht, rfl⟩

/-- The interior copy stores each original value at its padded address. -/
lemma padCopy_interior (vol : ℕ → ℕ) (p dx dy dz : ℕ) (s : ByteState)
    (i j k : ℕ) (hi : i < dx) (hj : j < dy) (hk : k < dz) :
    padCopy vol p dx dy dz s
        (flatten_3d_to_1d (p + i, p + j, p + k) (dx + 2 * p, dy + 2 * p, 0))
      = vol (flatten_3d_to_1d (i, j, k) (dx, dy, 0)) := by
  have hmem : ((i, j, k) : Idx3) ∈ tripleRange dx dy dz :=
    (mem_tripleRange dx dy dz (i, j, k)).mpr ⟨hi, hj, hk⟩
  have huniq : ∀ x ∈ tripleRange dx dy dz,
      flatten_3d_to_1d (p + x.1, p + x.2.1, p + x.2.2) (dx + 2 * p, dy + 2 * p, 0) =
        flatten_3d_to_1d (p + i, p + j, p + k) (dx + 2 * p, dy + 2 * p, 0) →
      vol (flatten_3d_to_1d x (dx, dy, 0)) = vol (flatten_3d_to_1d (i, j, k) (dx, dy, 0)) := by
    intro x hxmem he
    obtain ⟨hx1, hx2, hx3⟩ := (mem_tripleRange dx dy dz x).mp hxmem
    have heq : ((p + x.1, p + x.2.1, p + x.2.2) : Idx3) = (p + i, p + j, p + k) :=
      flatten_inj _ _ _ (by dsimp only; omega) (by dsimp only; omega) (by dsimp only; omega) (by dsimp only; omega) he
    simp only [Prod.mk.injEq] at heq
    have hx : x = ((i, j, k) : Idx3) := by
      obtain ⟨a1, a2, a3⟩ := x
      simp only [Prod.mk.injEq] at heq ⊢
      omega
    rw [hx]
  exact writeFold_write _ _ _ s ((i, j, k) : Idx3) hmem huniq

/-- C8: for every volume, dimensions and pad width, every interior cell of the
padded volume produced by pad_replicate_volume equals the corresponding cell
of the original volume: cropping the padding recovers the volume exactly. -/
theorem C8_padding_roundtrip (vol : ℕ → ℕ) (p dx dy dz i j k : ℕ)
    (hi : i < dx) (hj : j < dy) (hk : k < dz) :
    pad_replicate_volume vol p dx dy dz
        (flatten_3d_to_1d (p + i, p + j, p + k) (dx + 2 * p, dy + 2 * p, 0))
      = vol (flatten_3d_to_1d (i, j, k) (dx, dy, 0)) := by
  unfold pad_replicate_volume
  rw [padPosZ_frame]
  rotate_left
  · intro x hx1 hx2 hx3
    apply flatten_ne_of_ne _ _ _ hx1 (by dsimp only; omega) hx2 (by dsimp only; omega)
    intro he
    obtain ⟨t, ht, h3⟩ := hx3
    have h31 := congrArg (fun v : Idx3 => v.2.2) he
    simp only at h31
    omega
  rw [padNegZ_frame]
  rotate_left
  · intro x hx1 hx2 hx3
    apply flatten_ne_of_ne _ _ _ hx1 (by dsimp only; omega) hx2 (by dsimp only; omega)
    intro he
    have h31 := congrArg (fun v : Idx3 => v.2.2) he
    simp only at h31
    omega
  rw [padPosY_frame]
  rotate_left
  · intro x hx1 hx2 hx3
    obtain ⟨t, ht, h2⟩ := hx2
    apply flatten_ne_of_ne _ _ _ hx1 (by dsimp only; omega) (by dsimp only; omega) (by dsimp only; omega)
    intro he
    have h21 := congrArg (fun v : Idx3 => v.2.1) he
    simp only at h21
    omega
  rw [padNegY_frame]
  rotate_left
  · intro x hx1 hx2 hx3
    apply flatten_ne_of_ne _ _ _ hx1 (by dsimp only; omega) (by dsimp only; omega) (by dsimp only; omega)
    intro he
    have h21 := congrArg (fun v : Idx3 => v.2.1) he
    simp only at h21
    omega
  rw [padPosX_frame]
  rotate_left
  · intro x hx1 hx2 hx3
    obtain ⟨t, ht, h1⟩ := hx1
    apply flatten_ne_of_ne _ _ _ (by dsimp only; omega) (by dsimp only; omega) hx2 (by dsimp only; omega)
    intro he
    have h11 := congrArg (fun v : Idx3 => v.1) he
    simp only at h11
    omega
  rw [padNegX_frame]
  rotate_left
  · intro x hx1 hx2 hx3
    apply flatten_ne_of_ne _ _ _ (by dsimp only; omega) (by dsimp only; omega) hx2 (by dsimp only; omega)
    intro he
    have h11 := congrArg (fun v : Idx3 => v.1) he
    simp only at h11
    omega
  exact padCopy_interior vol p dx dy dz _ i j k hi hj hk

/-- Witness for C8 at a concrete volume, dimensions and pad width. -/
theorem C8_padding_roundtrip_witness :
    1 < 2 ∧ pad_replicate_volume (fun a => a + 10) 1 2 3 4
        (flatten_3d_to_1d (1 + 1, 1 + 2, 1 + 3) (2 + 2 * 1, 3 + 2 * 1, 0))
      = (fun a => a + 10) (flatten_3d_to_1d (1, 2, 3) (2, 3, 0)) :=
  ⟨by omega, C8_padding_roundtrip (fun a => a + 10) 1 2 3 4 1 2 3
    (by omega) (by omega) (by omega)⟩

/-- C4: when the caller's volume is already flagged beyond single-label width
(mediabyte > 4), mcx_svmc_preprocess is a no-op: the configuration — in
particular vol, mediabyte and srcpos — is returned bit-for-bit unchanged and
nothing else is performed. -/
theorem C4_noop_guard (sq : ℚ → ℚ) (fields : ℕ → Idx3 → ℚ) (cfg : Config)
    (h : cfg.mediabyte > 4) : mcx_svmc_preprocess sq fields cfg = cfg := by
  unfold mcx_svmc_preprocess
  rw [if_pos h]

/-- Witness for C4 at a concrete configuration with mediabyte 8. -/
theorem C4_noop_guard_witness :
    (Config.mk [1, 2] (1, 1, 2) 2 8 (0, 0, 0)).mediabyte > 4 ∧
    mcx_svmc_preprocess (fun x => x) (fun _ _ => 0)
        (Config.mk [1, 2] (1, 1, 2) 2 8 (0, 0, 0))
      = Config.mk [1, 2] (1, 1, 2) 2 8 (0, 0, 0) :=
  ⟨by decide, C4_noop_guard (fun x => x) (fun _ _ => 0) _ (by decide)⟩

/-- C3: when preprocessing applies (mediabyte ≤ 4), the returned configuration
holds the encoded volume — a buffer of exactly 2 × dimx·dimy·dimz 32-bit
words in the encoded-voxel layout — mediabyte equals the sub-voxel dual-label
sentinel MEDIA_2LABEL_SPLIT, and every srcpos component is incremented by
exactly 0.5. -/
theorem C3_output_contract (sq : ℚ → ℚ) (fields : ℕ → Idx3 → ℚ) (cfg : Config)
    (h : cfg.mediabyte ≤ 4) :
    (mcx_svmc_preprocess sq fields cfg).vol =
        encodeWords (svmcNewVolume sq fields (fun i => cfg.vol.getD i 0) cfg.dim cfg.medianum)
          (cfg.dim.1 * cfg.dim.2.1 * cfg.dim.2.2) ∧
    (mcx_svmc_preprocess sq fields cfg).vol.length
        = 2 * (cfg.dim.1 * cfg.dim.2.1 * cfg.dim.2.2) ∧
    (mcx_svmc_preprocess sq fields cfg).mediabyte = MEDIA_2LABEL_SPLIT ∧
    (mcx_svmc_preprocess sq fields cfg).srcpos
        = (cfg.srcpos.1 + 1 / 2, cfg.srcpos.2.1 + 1 / 2, cfg.srcpos.2.2 + 1 / 2) := by
  unfold mcx_svmc_preprocess
  rw [if_neg (by omega)]
  refine ⟨rfl, ?_, rfl, rfl⟩
  simp [encodeWords]

/-- Witness for C3 at a concrete configuration with mediabyte 1. -/
theorem C3_output_contract_witness :
    (Config.mk [1, 1, 1, 1, 1, 1, 1, 1] (2, 2, 2) 1 1 (0, 0, 0)).mediabyte ≤ 4 ∧
    (mcx_svmc_preprocess (fun x => x) (fun _ _ => 0)
        (Config.mk [1, 1, 1, 1, 1, 1, 1, 1] (2, 2, 2) 1 1 (0, 0, 0))).vol.length = 2 * (2 * 2 * 2) ∧
    (mcx_svmc_preprocess (fun x => x) (fun _ _ => 0)
        (Config.mk [1, 1, 1, 1, 1, 1, 1, 1] (2, 2, 2) 1 1 (0, 0, 0))).mediabyte
      = MEDIA_2LABEL_SPLIT ∧
    (mcx_svmc_preprocess (fun x => x) (fun _ _ => 0)
        (Config.mk [1, 1, 1, 1, 1, 1, 1, 1] (2, 2, 2) 1 1 (0, 0, 0))).srcpos
      = (0 + 1 / 2, 0 + 1 / 2, 0 + 1 / 2) := by
  have h := C3_output_contract (fun x => x) (fun _ _ => 0)
    (Config.mk [1, 1, 1, 1, 1, 1, 1, 1] (2, 2, 2) 1 1 (0, 0, 0)) (by decide)
  exact ⟨by decide, h.2.1, h.2.2.1, h.2.2.2⟩

/-- The first-label geometry write never touches the upper-label byte. -/
lemma writeGeometry_upper_unchanged (sq : ℚ → ℚ) (field : Idx3 → ℚ) (label : ℕ)
    (b : Idx3) (idx len : ℕ) (s : ByteState) (hlen : 0 < len) :
    writeGeometry sq field label b idx len s (4 * idx + 1) = s (4 * idx + 1) := by
  unfold writeGeometry
  rw [Function.update_noteq (by omega), Function.update_noteq (by omega),
    Function.update_noteq (by omega), Function.update_noteq (by omega),
    Function.update_noteq (by omega), Function.update_noteq (by omega),
    Function.update_noteq (by omega)]

/-- C1: at a voxel whose record already carries a boundary (nonzero second
word), a later label whose field still yields a nontrivial cube configuration
updates only the upper-label byte of the record; every other byte — the lower
label, the three centroid bytes and the three normal bytes — is unchanged. -/
theorem C1_later_label_updates_only_upper (sq : ℚ → ℚ) (field : Idx3 → ℚ)
    (label : ℕ) (dim b : Idx3) (s : ByteState)
    (h0 : cube_index (cubeValues field b) ≠ 0)
    (h255 : cube_index (cubeValues field b) ≠ 255)
    (hword : word_at s (flatten_3d_to_1d (voxelOfBlock b) dim
      + dim.1 * dim.2.1 * dim.2.2) ≠ 0) :
    split_voxel sq field label dim b s =
      Function.update s (4 * flatten_3d_to_1d (voxelOfBlock b) dim + 1) (label % 256) :=
  split_voxel_later sq field label dim b s (by tauto) hword

/-- Concrete smoothed field putting the y = 0 plane below the isovalue. -/
def planeField : Idx3 → ℚ := fun p => if p.2.1 = 0 then 0 else 1

/-- Concrete over-approximating square root used in witnesses. -/
def sqMax : ℚ → ℚ := fun x => max 1 x

/-- The all-zero byte state (the cudaMemset initial state). -/
def zeroBytes : ByteState := fun _ => 0

/-- A state whose voxel (1,1,1) record (for a 3 × 3 × 3 volume) has a nonzero
second word: byte 160 = 4 * (13 + 27) is 5. -/
def stateW1 : ByteState := Function.update zeroBytes 160 5

/-- Witness for C1 at a concrete field, state and dimension. -/
theorem C1_later_label_updates_only_upper_witness :
    cube_index (cubeValues planeField (0, 0, 0)) ≠ 0 ∧
    cube_index (cubeValues planeField (0, 0, 0)) ≠ 255 ∧
    word_at stateW1 (flatten_3d_to_1d (voxelOfBlock (0, 0, 0)) (3, 3, 3) + 3 * 3 * 3) ≠ 0 ∧
    split_voxel sqMax planeField 6 (3, 3, 3) (0, 0, 0) stateW1 =
      Function.update stateW1 (4 * flatten_3d_to_1d (voxelOfBlock (0, 0, 0)) (3, 3, 3) + 1)
        (6 % 256) :=
  ⟨by with_unfolding_all decide, by with_unfolding_all decide, by with_unfolding_all decide,
    C1_later_label_updates_only_upper sqMax planeField 6 (3, 3, 3) (0, 0, 0) stateW1
      (by with_unfolding_all decide) (by with_unfolding_all decide)
      (by with_unfolding_all decide)⟩

/-- A state whose voxel (1,1,1) record (for a 3 × 3 × 3 volume) has a nonzero
upper-label byte (byte 53 = 4 * 13 + 1 is 9) but an all-zero second word. -/
def stateUpper : ByteState := Function.update zeroBytes 53 9

/-- Counterexample to C9 as stated: at a state whose upper-label byte is
nonzero but whose second word is zero, split_voxel takes the first-label path
and overwrites the lower-label byte (and geometry) — so the "already has
boundary" decision is not keyed on the upper-label byte. -/
theorem C9_counterexample :
    stateUpper (4 * flatten_3d_to_1d (voxelOfBlock (0, 0, 0)) (3, 3, 3) + 1) ≠ 0 ∧
    stateUpper (4 * flatten_3d_to_1d (voxelOfBlock (0, 0, 0)) (3, 3, 3)) = 0 ∧
    cube_index (cubeValues planeField (0, 0, 0)) ≠ 0 ∧
    cube_index (cubeValues planeField (0, 0, 0)) ≠ 255 ∧
    split_voxel sqMax planeField 7 (3, 3, 3) (0, 0, 0) stateUpper
      (4 * flatten_3d_to_1d (voxelOfBlock (0, 0, 0)) (3, 3, 3)) = 7 := by
  refine ⟨?_, ?_, ?_, ?_, ?_⟩ <;> with_unfolding_all decide

/-- C9 amended: the per-voxel "already has boundary" condition that selects
between the first-label write path and the upper-label-only path is tested
via the voxel's second 32-bit word (centroid-z byte and the three normal
bytes) being nonzero — not via the upper-label byte. -/
theorem C9_boundary_flag_is_word1 (sq : ℚ → ℚ) (field : Idx3 → ℚ) (label : ℕ)
    (dim b : Idx3) (s : ByteState)
    (h0 : cube_index (cubeValues field b) ≠ 0)
    (h255 : cube_index (cubeValues field b) ≠ 255)
    (hlen : 0 < dim.1 * dim.2.1 * dim.2.2)
    (hupper : s (4 * flatten_3d_to_1d (voxelOfBlock b) dim + 1) ≠ label % 256) :
    (split_voxel sq field label dim b s =
        Function.update s (4 * flatten_3d_to_1d (voxelOfBlock b) dim + 1) (label % 256))
      ↔ word_at s (flatten_3d_to_1d (voxelOfBlock b) dim + dim.1 * dim.2.1 * dim.2.2) ≠ 0 := by
  constructor
  · intro he hw
    rw [split_voxel_first sq field label dim b s (by tauto) hw] at he
    have hcontr := congrFun he (4 * flatten_3d_to_1d (voxelOfBlock b) dim + 1)
    rw [Function.update_same] at hcontr
    rw [writeGeometry_upper_unchanged sq field label b _ _ s hlen] at hcontr
    exact hupper hcontr
  · exact fun hw => split_voxel_later sq field label dim b s (by tauto) hw

/-- Witness for the amended C9 at a concrete field, state and dimension. -/
theorem C9_boundary_flag_is_word1_witness :
    cube_index (cubeValues planeField (0, 0, 0)) ≠ 0 ∧
    cube_index (cubeValues planeField (0, 0, 0)) ≠ 255 ∧
    (0 : ℕ) < 3 * 3 * 3 ∧
    stateW1 (4 * flatten_3d_to_1d (voxelOfBlock (0, 0, 0)) (3, 3, 3) + 1) ≠ 6 % 256 ∧
    ((split_voxel sqMax planeField 6 (3, 3, 3) (0, 0, 0) stateW1 =
        Function.update stateW1 (4 * flatten_3d_to_1d (voxelOfBlock (0, 0, 0)) (3, 3, 3) + 1)
          (6 % 256))
      ↔ word_at stateW1 (flatten_3d_to_1d (voxelOfBlock (0, 0, 0)) (3, 3, 3) + 3 * 3 * 3) ≠ 0) :=
  ⟨by with_unfolding_all decide, by with_unfolding_all decide, by decide,
    by with_unfolding_all decide,
    C9_boundary_flag_is_word1 sqMax planeField 6 (3, 3, 3) (0, 0, 0) stateW1
      (by with_unfolding_all decide) (by with_unfolding_all decide) (by decide)
      (by with_unfolding_all decide)⟩

/-- Concrete smoothed field whose only below-isovalue sample is (1,1,1). -/
def probeField : Idx3 → ℚ := fun p => if p = (1, 1, 1) then 0 else 1

/-- Counterexample to C5 as stated: on a 3 × 3 × 3 volume the isosurface stage
writes the record of voxel (2,2,2) — its index 2 = dim-1 exceeds dim-2 = 1 on
every axis, so the stage domain is not 1..dim-2. -/
theorem C5_counterexample :
    (2 : ℕ) > 3 - 2 ∧
    104 = 4 * flatten_3d_to_1d (2, 2, 2) (3, 3, 3) ∧
    zeroBytes 104 = 0 ∧
    split_voxel_pass sqMax probeField 7 (3, 3, 3) zeroBytes 104 = 7 := by
  refine ⟨by omega, by with_unfolding_all decide, rfl, by with_unfolding_all decide⟩

/-- C5 amended: the isosurface stage iterates blocks 0..dim-2 per axis and
writes the record of voxel blockIdx+1, so the voxels it can write are exactly
those with indices 1..dim-1 along each axis: any byte changed by the pass
belongs to the record of such a voxel (in particular records of voxels with a
zero index component are never written). -/
theorem C5_pass_write_domain (sq : ℚ → ℚ) (field : Idx3 → ℚ) (label : ℕ)
    (dim : Idx3) (s : ByteState) (a : ℕ)
    (hch : split_voxel_pass sq field label dim s a ≠ s a) :
    ∃ v : Idx3, 1 ≤ v.1 ∧ v.1 < dim.1 ∧ 1 ≤ v.2.1 ∧ v.2.1 < dim.2.1 ∧
      1 ≤ v.2.2 ∧ v.2.2 < dim.2.2 ∧ isRecordAddr dim v a := by
  by_contra hnot
  push_neg at hnot
  apply hch
  unfold split_voxel_pass
  apply foldl_fix
  intro b hb s1
  apply split_voxel_frame
  intro hrec
  obtain ⟨hb1, hb2, hb3⟩ := (mem_tripleRange _ _ _ b).mp hb
  exact absurd hrec
    (hnot (voxelOfBlock b)
      (by dsimp only [voxelOfBlock, iadd]; omega) (by dsimp only [voxelOfBlock, iadd]; omega)
      (by dsimp only [voxelOfBlock, iadd]; omega) (by dsimp only [voxelOfBlock, iadd]; omega)
      (by dsimp only [voxelOfBlock, iadd]; omega) (by dsimp only [voxelOfBlock, iadd]; omega))

/-- Witness for the amended C5 at a concrete pass that changes a byte. -/
theorem C5_pass_write_domain_witness :
    split_voxel_pass sqMax probeField 6 (3, 3, 3) zeroBytes 104 ≠ zeroBytes 104 ∧
    ∃ v : Idx3, 1 ≤ v.1 ∧ v.1 < 3 ∧ 1 ≤ v.2.1 ∧ v.2.1 < 3 ∧
      1 ≤ v.2.2 ∧ v.2.2 < 3 ∧ isRecordAddr (3, 3, 3) v 104 :=
  ⟨by with_unfolding_all decide,
    C5_pass_write_domain sqMax probeField 6 (3, 3, 3) zeroBytes 104
      (by with_unfolding_all decide)⟩

/-- When all 8 corners are below the isovalue the configuration is 255. -/
lemma cube_index_all_below (cv : ℕ → ℚ)
    (h : ∀ i, i < 8 → cv i < MCX_SVMC_ISOVALUE) : cube_index cv = 255 := by
  have e : List.range 8 = [0, 1, 2, 3, 4, 5, 6, 7] := by rfl
  rw [cube_index, e]
  simp only [List.foldl_cons, List.foldl_nil]
  rw [if_pos (h 0 (by omega)), if_pos (h 1 (by omega)), if_pos (h 2 (by omega)),
    if_pos (h 3 (by omega)), if_pos (h 4 (by omega)), if_pos (h 5 (by omega)),
    if_pos (h 6 (by omega)), if_pos (h 7 (by omega))]
  rfl

/-- When no corner is below the isovalue the configuration is 0. -/
lemma cube_index_none_below (cv : ℕ → ℚ)
    (h : ∀ i, i < 8 → ¬ cv i < MCX_SVMC_ISOVALUE) : cube_index cv = 0 := by
  have e : List.range 8 = [0, 1, 2, 3, 4, 5, 6, 7] := by rfl
  rw [cube_index, e]
  simp only [List.foldl_cons, List.foldl_nil]
  rw [if_neg (h 0 (by omega)), if_neg (h 1 (by omega)), if_neg (h 2 (by omega)),
    if_neg (h 3 (by omega)), if_neg (h 4 (by omega)), if_neg (h 5 (by omega)),
    if_neg (h 6 (by omega)), if_neg (h 7 (by omega))]

/-- C2: a voxel whose 8 cube-corner smoothed-field values are all below, or
all at-or-above, the isovalue for every processed label (cube_index 0 or 255
in every label iteration) has a zero upper-label byte and zero centroid and
normal bytes in the output volume. -/
theorem C2_homogeneous_interior (sq : ℚ → ℚ) (fields : ℕ → Idx3 → ℚ)
    (vol : ℕ → ℕ) (dim : Idx3) (medianum : ℕ) (v : Idx3)
    (hv1 : 1 ≤ v.1) (hv1b : v.1 < dim.1) (hv2 : 1 ≤ v.2.1) (hv2b : v.2.1 < dim.2.1)
    (hv3 : 1 ≤ v.2.2) (hv3b : v.2.2 < dim.2.2)
    (hhom : ∀ l, l < medianum →
      (∀ i, i < 8 →
        cubeValues (fields l) (v.1 - 1, v.2.1 - 1, v.2.2 - 1) i < MCX_SVMC_ISOVALUE) ∨
      (∀ i, i < 8 →
        ¬ cubeValues (fields l) (v.1 - 1, v.2.1 - 1, v.2.2 - 1) i < MCX_SVMC_ISOVALUE)) :
    svmcNewVolume sq fields vol dim medianum (4 * flatten_3d_to_1d v dim + 1) = 0 ∧
    svmcNewVolume sq fields vol dim medianum (4 * flatten_3d_to_1d v dim + 2) = 0 ∧
    svmcNewVolume sq fields vol dim medianum (4 * flatten_3d_to_1d v dim + 3) = 0 ∧
    svmcNewVolume sq fields vol dim medianum
      (4 * (flatten_3d_to_1d v dim + dim.1 * dim.2.1 * dim.2.2)) = 0 ∧
    svmcNewVolume sq fields vol dim medianum
      (4 * (flatten_3d_to_1d v dim + dim.1 * dim.2.1 * dim.2.2) + 1) = 0 ∧
    svmcNewVolume sq fields vol dim medianum
      (4 * (flatten_3d_to_1d v dim + dim.1 * dim.2.1 * dim.2.2) + 2) = 0 ∧
    svmcNewVolume sq fields vol dim medianum
      (4 * (flatten_3d_to_1d v dim + dim.1 * dim.2.1 * dim.2.2) + 3) = 0 := by
  have hflt : flatten_3d_to_1d v dim < dim.1 * dim.2.1 * dim.2.2 :=
    flatten_lt v dim hv1b hv2b hv3b
  have key : ∀ a : ℕ, isRecordAddr dim v a → a ≠ 4 * flatten_3d_to_1d v dim →
      svmcNewVolume sq fields vol dim medianum a = 0 := by
    intro a harec hane
    unfold svmcNewVolume
    rw [foldl_fix]
    · unfold init_lower_label
      rw [writeFold_frame]
      intro i hi
      rw [List.mem_range] at hi
      obtain ⟨k, hk, hform⟩ := harec
      rcases hform with hform | hform <;> omega
    · intro l hl s1
      unfold split_voxel_pass
      apply foldl_fix
      intro b hb s2
      obtain ⟨hb1, hb2, hb3⟩ := (mem_tripleRange _ _ _ b).mp hb
      by_cases hbv : voxelOfBlock b = v
      · have hbval : b = ((v.1 - 1, v.2.1 - 1, v.2.2 - 1) : Idx3) := by
          obtain ⟨b1, b2, b3⟩ := b
          have h1 := congrArg (fun t : Idx3 => t.1) hbv
          have h2 := congrArg (fun t : Idx3 => t.2.1) hbv
          have h3 := congrArg (fun t : Idx3 => t.2.2) hbv
          dsimp only [voxelOfBlock, iadd] at h1 h2 h3
          simp only [Prod.mk.injEq]
          omega
        rw [List.mem_range] at hl
        have htriv : cube_index (cubeValues (fields l) b) = 0 ∨
            cube_index (cubeValues (fields l) b) = 255 := by
          rw [hbval]
          rcases hhom l hl with hcase | hcase
          · exact Or.inr (cube_index_all_below _ hcase)
          · exact Or.inl (cube_index_none_below _ hcase)
        rw [split_voxel_trivial sq (fields l) l dim b s2 htriv]
      · apply split_voxel_frame
        intro hrec
        apply hbv
        refine record_disjoint dim (voxelOfBlock b) v a ?_ ?_ ?_ hv1b hv2b hv3b hrec harec
        · dsimp only [voxelOfBlock, iadd]; omega
        · dsimp only [voxelOfBlock, iadd]; omega
        · dsimp only [voxelOfBlock, iadd]; omega
  refine ⟨?_, ?_, ?_, ?_, ?_, ?_, ?_⟩
  · exact key _ ⟨1, by omega, Or.inl rfl⟩ (by omega)
  · exact key _ ⟨2, by omega, Or.inl rfl⟩ (by omega)
  · exact key _ ⟨3, by omega, Or.inl rfl⟩ (by omega)
  · exact key _ ⟨0, by omega, Or.inr rfl⟩ (by omega)
  · exact key _ ⟨1, by omega, Or.inr rfl⟩ (by omega)
  · exact key _ ⟨2, by omega, Or.inr rfl⟩ (by omega)
  · exact key _ ⟨3, by omega, Or.inr rfl⟩ (by omega)

/-- Witness for C2 at a concrete pipeline with one label whose field is
identically zero (every corner below the isovalue). -/
theorem C2_homogeneous_interior_witness :
    svmcNewVolume sqMax (fun _ _ => 0) (fun _ => 3) (3, 3, 3) 1
      (4 * flatten_3d_to_1d (1, 1, 1) (3, 3, 3) + 1) = 0 ∧
    svmcNewVolume sqMax (fun _ _ => 0) (fun _ => 3) (3, 3, 3) 1
      (4 * (flatten_3d_to_1d (1, 1, 1) (3, 3, 3) + 3 * 3 * 3) + 3) = 0 := by
  have h := C2_homogeneous_interior sqMax (fun _ _ => 0) (fun _ => 3) (3, 3, 3) 1 (1, 1, 1)
    (by decide) (by decide) (by decide) (by decide) (by decide) (by decide)
    (fun l hl => Or.inl (fun i hi => by norm_num [cubeValues, MCX_SVMC_ISOVALUE]))
  exact ⟨h.1, h.2.2.2.2.2.2⟩

/-- A cube whose corner 0 equals the isovalue exactly while all other corners
lie below it: configuration 254, with all three isosurface vertices collapsing
onto corner 0. -/
def cv254 : ℕ → ℚ := fun i => if i = 0 then 1 / 2 else 0

/-- A concrete square-root stand-in with sqrt 0 = 0 (as sqrtf has). -/
def sqZero : ℚ → ℚ := fun x => if x = 0 then 0 else 1

/-- C6: the divisions of split_voxel by the per-triangle area and by the total
area are not guarded: at the configuration-254 cube cv254 the emitted triangle
is degenerate (all vertices equal), its area and the total area are 0, and the
geometry computation divides by zero — producing NaN in the CUDA kernel (the
model's none) instead of a guarded skip or zero normal, while the voxel is
nontrivial and is written. -/
theorem C6_division_by_zero_reachable :
    cube_index cv254 = 254 ∧
    cube_index cv254 ≠ 0 ∧ cube_index cv254 ≠ 255 ∧
    geomOfCube sqZero cv254 = none := by
  refine ⟨?_, ?_, ?_, ?_⟩ <;> with_unfolding_all decide

/-- The bytes stored by the first-label write path when the geometry
computation succeeded: the two in-word-0 centroid bytes and the four bytes of
word 1 (centroid z and the quantised normal). -/
lemma writeGeometry_bytes (sq : ℚ → ℚ) (field : Idx3 → ℚ) (label : ℕ)
    (b : Idx3) (idx len : ℕ) (s : ByteState) (hlen : 0 < len)
    (c n : Vec3) (hg : geomOfCube sq (cubeValues field b) = some (c, n)) :
    writeGeometry sq field label b idx len s (4 * idx) = label % 256 ∧
    writeGeometry sq field label b idx len s (4 * idx + 2) = quantCentroidByte c.1 ∧
    writeGeometry sq field label b idx len s (4 * idx + 3) = quantCentroidByte c.2.1 ∧
    writeGeometry sq field label b idx len s (4 * (idx + len)) = quantCentroidByte c.2.2 ∧
    writeGeometry sq field label b idx len s (4 * (idx + len) + 1) = quantNormalByte n.1 ∧
    writeGeometry sq field label b idx len s (4 * (idx + len) + 2) = quantNormalByte n.2.1 ∧
    writeGeometry sq field label b idx len s (4 * (idx + len) + 3) = quantNormalByte n.2.2 := by
  unfold writeGeometry
  rw [hg]
  refine ⟨?_, ?_, ?_, ?_, ?_, ?_, ?_⟩
  · rw [Function.update_noteq (by omega), Function.update_noteq (by omega),
      Function.update_noteq (by omega), Function.update_noteq (by omega),
      Function.update_noteq (by omega), Function.update_noteq (by omega),
      Function.update_same]
  · rw [Function.update_noteq (by omega), Function.update_noteq (by omega),
      Function.update_noteq (by omega), Function.update_noteq (by omega),
      Function.update_noteq (by omega), Function.update_same]
  · rw [Function.update_noteq (by omega), Function.update_noteq (by omega),
      Function.update_noteq (by omega), Function.update_noteq (by omega),
      Function.update_same]
  · rw [Function.update_noteq (by omega), Function.update_noteq (by omega),
      Function.update_noteq (by omega), Function.update_same]
  · rw [Function.update_noteq (by omega), Function.update_noteq (by omega),
      Function.update_same]
  · rw [Function.update_noteq (by omega), Function.update_same]
  · rw [Function.update_same]

/-- C7: under the claim's preconditions (successful geometry with nonzero
accumulated area, normal components in [-1, 1]), every quantised normal byte
emitted by split_voxel is at most 254 and every centroid byte is at most 255
(they are ℕ-valued, hence at least 0). -/
theorem C7_quantization_bounds (sq : ℚ → ℚ) (field : Idx3 → ℚ) (label : ℕ)
    (dim b : Idx3) (s : ByteState)
    (h0 : cube_index (cubeValues field b) ≠ 0)
    (h255 : cube_index (cubeValues field b) ≠ 255)
    (hword : word_at s (flatten_3d_to_1d (voxelOfBlock b) dim
      + dim.1 * dim.2.1 * dim.2.2) = 0)
    (hlen : 0 < dim.1 * dim.2.1 * dim.2.2)
    (c n : Vec3) (hg : geomOfCube sq (cubeValues field b) = some (c, n))
    (hnx : -1 ≤ n.1 ∧ n.1 ≤ 1) (hny : -1 ≤ n.2.1 ∧ n.2.1 ≤ 1)
    (hnz : -1 ≤ n.2.2 ∧ n.2.2 ≤ 1) :
    split_voxel sq field label dim b s
        (4 * (flatten_3d_to_1d (voxelOfBlock b) dim + dim.1 * dim.2.1 * dim.2.2) + 1) ≤ 254 ∧
    split_voxel sq field label dim b s
        (4 * (flatten_3d_to_1d (voxelOfBlock b) dim + dim.1 * dim.2.1 * dim.2.2) + 2) ≤ 254 ∧
    split_voxel sq field label dim b s
        (4 * (flatten_3d_to_1d (voxelOfBlock b) dim + dim.1 * dim.2.1 * dim.2.2) + 3) ≤ 254 ∧
    split_voxel sq field label dim b s
        (4 * flatten_3d_to_1d (voxelOfBlock b) dim + 2) ≤ 255 ∧
    split_voxel sq field label dim b s
        (4 * flatten_3d_to_1d (voxelOfBlock b) dim + 3) ≤ 255 ∧
    split_voxel sq field label dim b s
        (4 * (flatten_3d_to_1d (voxelOfBlock b) dim + dim.1 * dim.2.1 * dim.2.2)) ≤ 255 := by
  rw [split_voxel_first sq field label dim b s (by tauto) hword]
  obtain ⟨hb0, hb2, hb3, hcz, hn1, hn2, hn3⟩ :=
    writeGeometry_bytes sq field label b _ _ s hlen c n hg
  rw [hb2, hb3, hcz, hn1, hn2, hn3]
  have hmod : ∀ m : ℕ, m % 256 ≤ 255 := fun m => by omega
  refine ⟨?_, ?_, ?_, ?_, ?_, ?_⟩
  · exact min_le_right _ _
  · exact min_le_right _ _
  · exact min_le_right _ _
  · exact hmod _
  · exact hmod _
  · exact hmod _

/-- Witness for C7 at a concrete field whose geometry succeeds. -/
theorem C7_quantization_bounds_witness :
    geomOfCube sqMax (cubeValues planeField (0, 0, 0))
        = some (((1 : ℚ)/2, (1 : ℚ)/2, (1 : ℚ)/2), (0, -1, 0)) ∧
    split_voxel sqMax planeField 2 (3, 3, 3) (0, 0, 0) zeroBytes
        (4 * (flatten_3d_to_1d (voxelOfBlock (0, 0, 0)) (3, 3, 3) + 3 * 3 * 3) + 1) ≤ 254 ∧
    split_voxel sqMax planeField 2 (3, 3, 3) (0, 0, 0) zeroBytes
        (4 * flatten_3d_to_1d (voxelOfBlock (0, 0, 0)) (3, 3, 3) + 2) ≤ 255 := by
  have hg : geomOfCube sqMax (cubeValues planeField (0, 0, 0))
      = some (((1 : ℚ)/2, (1 : ℚ)/2, (1 : ℚ)/2), (0, -1, 0)) := by
    with_unfolding_all decide
  have h := C7_quantization_bounds sqMax planeField 2 (3, 3, 3) (0, 0, 0) zeroBytes
    (by with_unfolding_all decide) (by with_unfolding_all decide)
    (by with_unfolding_all decide) (by decide)
    ((1 : ℚ)/2, (1 : ℚ)/2, (1 : ℚ)/2) (0, -1, 0) hg
    (by constructor <;> norm_num) (by constructor <;> norm_num)
    (by constructor <;> norm_num)
  exact ⟨hg, h.1, h.2.2.2.1⟩

/-- A dot product of a vector with itself is nonnegative. -/
lemma dot_self_nonneg (a : Vec3) : 0 ≤ dot a a := by
  unfold dot
  nlinarith [mul_self_nonneg a.1, mul_self_nonneg a.2.1, mul_self_nonneg a.2.2]

/-- The Lagrange form of the Cauchy-Schwarz inequality in three dimensions. -/
lemma dot_sq_le (a b : Vec3) : dot a b ^ 2 ≤ dot a a * dot b b := by
  unfold dot
  nlinarith [sq_nonneg (a.1 * b.2.1 - a.2.1 * b.1), sq_nonneg (a.1 * b.2.2 - a.2.2 * b.1),
    sq_nonneg (a.2.1 * b.2.2 - a.2.2 * b.2.1)]

/-- A dot product is bounded by the product of norm bounds. -/
lemma dot_le_of_sq (a b : Vec3) (A B : ℚ) (ha : dot a a ≤ A ^ 2) (hb : dot b b ≤ B ^ 2)
    (hA : 0 ≤ A) (hB : 0 ≤ B) : dot a b ≤ A * B := by
  have h1 := dot_sq_le a b
  have h2 : dot a b ^ 2 ≤ (A * B) ^ 2 := by
    have h3 : dot a a * dot b b ≤ A ^ 2 * dot b b :=
      mul_le_mul_of_nonneg_right ha (dot_self_nonneg b)
    have h4 : A ^ 2 * dot b b ≤ A ^ 2 * B ^ 2 :=
      mul_le_mul_of_nonneg_left hb (sq_nonneg A)
    nlinarith
  nlinarith [h2, mul_nonneg hA hB]

/-- Norm bounds add under vector addition (squared triangle inequality). -/
lemma dot_add_le (a b : Vec3) (A B : ℚ) (ha : dot a a ≤ A ^ 2) (hb : dot b b ≤ B ^ 2)
    (hA : 0 ≤ A) (hB : 0 ≤ B) : dot (vadd a b) (vadd a b) ≤ (A + B) ^ 2 := by
  have h := dot_le_of_sq a b A B ha hb hA hB
  have hexp : dot (vadd a b) (vadd a b) = dot a a + 2 * dot a b + dot b b := by
    unfold vadd dot
    ring
  have hsq : (A + B) ^ 2 = A ^ 2 + 2 * (A * B) + B ^ 2 := by ring
  linarith

/-- Characterisation of a successful triangle-loop step. -/
lemma triStep_some (sq : ℚ → ℚ) (verts : ℕ → Vec3) (acc : ℚ × Vec3 × Vec3)
    (t : ℤ × ℤ × ℤ) (acc2 : ℚ × Vec3 × Vec3) (h : triStep sq verts acc t = some acc2) :
    triArea sq verts t ≠ 0 ∧
    acc2 = (acc.1 + triArea sq verts t,
      vadd acc.2.1 (smul (1 / 2) (triCross verts t)),
      vadd acc.2.2 (smul (triArea sq verts t) (triCentroid verts t))) := by
  unfold triStep at h
  revert h
  cases hdiv : divV3 (smul (1 / 2) (triCross verts t)) (triArea sq verts t) with
  | none => intro h; cases h
  | some tn =>
      intro h
      injection h with h
      have hne : triArea sq verts t ≠ 0 := by
        intro hz
        unfold divV3 at hdiv
        rw [if_pos hz] at hdiv
        cases hdiv
      have htn : tn = ((smul (1 / 2) (triCross verts t)).1 / triArea sq verts t,
          (smul (1 / 2) (triCross verts t)).2.1 / triArea sq verts t,
          (smul (1 / 2) (triCross verts t)).2.2 / triArea sq verts t) := by
        unfold divV3 at hdiv
        rw [if_neg hne] at hdiv
        injection hdiv with hdiv
        exact hdiv.symm
      have hstn : smul (triArea sq verts t) tn = smul (1 / 2) (triCross verts t) := by
        rw [htn]
        unfold smul
        have hc : ∀ q : ℚ, triArea sq verts t * (q / triArea sq verts t) = q := by
          intro q
          field_simp
        simp only [Prod.mk.injEq]
        exact ⟨hc _, hc _, hc _⟩
      rw [← h, hstn]
      exact ⟨hne, rfl⟩

/-- Invariant of the triangle loop: the accumulated normal sum has Euclidean
norm at most the accumulated total area (each triangle contributes the vector
0.5 · cross of squared norm at most the square of its accumulated area, the
square root being an over-approximation). -/
lemma accumTris_inv (sq : ℚ → ℚ) (verts : ℕ → Vec3)
    (hsq : ∀ x : ℚ, 0 ≤ x → 0 ≤ sq x ∧ x ≤ sq x ^ 2) :
    ∀ (ts : List (ℤ × ℤ × ℤ)) (acc res : ℚ × Vec3 × Vec3),
      accumTris sq verts ts acc = some res →
      0 ≤ acc.1 → dot acc.2.1 acc.2.1 ≤ acc.1 ^ 2 →
      0 ≤ res.1 ∧ dot res.2.1 res.2.1 ≤ res.1 ^ 2 := by
  intro ts
  induction ts with
  | nil =>
      intro acc res h h0 h1
      unfold accumTris at h
      cases h
      exact ⟨h0, h1⟩
  | cons t ts ih =>
      intro acc res h h0 h1
      unfold accumTris at h
      revert h
      cases htri : triStep sq verts acc t with
      | none => intro h; cases h
      | some acc2 =>
          intro h
          obtain ⟨hne, hval⟩ := triStep_some sq verts acc t acc2 htri
          have hdotcr : (0 : ℚ) ≤ dot (triCross verts t) (triCross verts t) :=
            dot_self_nonneg _
          obtain ⟨hsq0, hsq2⟩ := hsq (dot (triCross verts t) (triCross verts t)) hdotcr
          have harea0 : (0 : ℚ) ≤ triArea sq verts t := by
            unfold triArea
            linarith
          have hhalf : dot (smul (1 / 2) (triCross verts t)) (smul (1 / 2) (triCross verts t))
              ≤ triArea sq verts t ^ 2 := by
            have he : dot (smul (1 / 2) (triCross verts t)) (smul (1 / 2) (triCross verts t))
                = 1 / 4 * dot (triCross verts t) (triCross verts t) := by
              unfold smul dot
              ring
            have ha2 : triArea sq verts t ^ 2
                = 1 / 4 * sq (dot (triCross verts t) (triCross verts t)) ^ 2 := by
              unfold triArea
              ring
            rw [he, ha2]
            linarith
          refine ih acc2 res h ?_ ?_
          · rw [hval]
            dsimp only
            linarith
          · rw [hval]
            dsimp only
            exact dot_add_le acc.2.1 (smul (1 / 2) (triCross verts t)) acc.1
              (triArea sq verts t) h1 hhalf h0 harea0

/-- Characterisation of a successful geometry computation. -/
lemma geomOfCube_some_elim (sq : ℚ → ℚ) (cv : ℕ → ℚ) (c n : Vec3)
    (hg : geomOfCube sq cv = some (c, n)) :
    ∃ acc : ℚ × Vec3 × Vec3,
      accumTris sq (isosurfaceVertex cv (edge_intersections.getD (cube_index cv) 0))
          (triFan (triangle_vertices.getD (cube_index cv) [])) (0, (0, 0, 0), (0, 0, 0))
        = some acc ∧
      acc.1 ≠ 0 ∧
      n = ((- acc.2.1.1) / acc.1, (- acc.2.1.2.1) / acc.1, (- acc.2.1.2.2) / acc.1) := by
  unfold geomOfCube at hg
  revert hg
  cases hacc : accumTris sq (isosurfaceVertex cv (edge_intersections.getD (cube_index cv) 0))
      (triFan (triangle_vertices.getD (cube_index cv) [])) (0, (0, 0, 0), (0, 0, 0)) with
  | none => intro hg; cases hg
  | some acc =>
      intro hg
      dsimp only at hg
      revert hg
      cases hdivn : divV3 (vneg acc.2.1) acc.1 with
      | none =>
          intro hg
          dsimp only at hg
          cases hg
      | some n2 =>
          cases hdivc : divV3 acc.2.2 acc.1 with
          | none =>
              intro hg
              dsimp only at hg
              cases hg
          | some c2 =>
              intro hg
              dsimp only at hg
              injection hg with hg
              have hAne : acc.1 ≠ 0 := by
                intro hz
                unfold divV3 at hdivn
                rw [if_pos hz] at hdivn
                cases hdivn
              refine ⟨acc, rfl, hAne, ?_⟩
              have hn2 : n2 = n := congrArg Prod.snd hg
              rw [← hn2]
              unfold divV3 at hdivn
              rw [if_neg hAne] at hdivn
              injection hdivn with hdivn
              rw [← hdivn]
              unfold vneg
              rfl

/-- A successful geometry computation yields a normal of Euclidean norm at
most one, provided the square root over-approximates (x ≤ sq x ^ 2). -/
lemma geomOfCube_norm_le (sq : ℚ → ℚ) (cv : ℕ → ℚ) (c n : Vec3)
    (hsq : ∀ x : ℚ, 0 ≤ x → 0 ≤ sq x ∧ x ≤ sq x ^ 2)
    (hg : geomOfCube sq cv = some (c, n)) : dot n n ≤ 1 := by
  obtain ⟨acc, hacc, hAne, hnval⟩ := geomOfCube_some_elim sq cv c n hg
  have hinv := accumTris_inv sq
    (isosurfaceVertex cv (edge_intersections.getD (cube_index cv) 0)) hsq
    (triFan (triangle_vertices.getD (cube_index cv) [])) (0, (0, 0, 0), (0, 0, 0))
    acc hacc (le_refl 0) (by norm_num [dot])
  have hApos : (0 : ℚ) < acc.1 := lt_of_le_of_ne hinv.1 (Ne.symm hAne)
  have hval : dot n n = dot acc.2.1 acc.2.1 / acc.1 ^ 2 := by
    rw [eq_div_iff (pow_ne_zero 2 hAne), hnval]
    unfold dot
    field_simp
    exact Or.inl (by ring)
  rw [hval, div_le_one (by positivity)]
  exact hinv.2

/-- If all three quantised normal bytes were zero, every normal component
would lie below -253/255, forcing a squared norm above 1. -/
lemma quant_bytes_nonzero (n : Vec3) (hn : dot n n ≤ 1) :
    ¬ (quantNormalByte n.1 = 0 ∧ quantNormalByte n.2.1 = 0 ∧ quantNormalByte n.2.2 = 0) := by
  have hcomp : ∀ q : ℚ, q * q ≤ 1 → -1 ≤ q ∧ q ≤ 1 := by
    intro q hq
    constructor
    · nlinarith [sq_nonneg (q + 1)]
    · nlinarith [sq_nonneg (q - 1)]
  have hb1 : n.1 * n.1 ≤ 1 := by
    unfold dot at hn
    nlinarith [mul_self_nonneg n.2.1, mul_self_nonneg n.2.2]
  have hb2 : n.2.1 * n.2.1 ≤ 1 := by
    unfold dot at hn
    nlinarith [mul_self_nonneg n.1, mul_self_nonneg n.2.2]
  have hb3 : n.2.2 * n.2.2 ≤ 1 := by
    unfold dot at hn
    nlinarith [mul_self_nonneg n.1, mul_self_nonneg n.2.1]
  have key : ∀ q : ℚ, -1 ≤ q → q ≤ 1 → quantNormalByte q = 0 → q < -253 / 255 := by
    intro q hql hqu hz
    unfold quantNormalByte at hz
    have hx0 : (0 : ℚ) ≤ (q + 1) * 255 * (1 / 2) := by nlinarith
    have hx255 : (q + 1) * 255 * (1 / 2) ≤ 255 := by nlinarith
    have hf0 : 0 ≤ ⌊(q + 1) * 255 * (1 / 2)⌋ := Int.floor_nonneg.mpr hx0
    have hf255 : ⌊(q + 1) * 255 * (1 / 2)⌋ ≤ 255 := by
      have h1 : (⌊(q + 1) * 255 * (1 / 2)⌋ : ℚ) ≤ (q + 1) * 255 * (1 / 2) :=
        Int.floor_le _
      have h2 : (⌊(q + 1) * 255 * (1 / 2)⌋ : ℚ) ≤ 255 := le_trans h1 hx255
      exact_mod_cast h2
    have htn : (⌊(q + 1) * 255 * (1 / 2)⌋).toNat ≤ 255 := by omega
    have hmod : (⌊(q + 1) * 255 * (1 / 2)⌋).toNat % 256
        = (⌊(q + 1) * 255 * (1 / 2)⌋).toNat := Nat.mod_eq_of_lt (by omega)
    rw [hmod] at hz
    have hzero : (⌊(q + 1) * 255 * (1 / 2)⌋).toNat = 0 := by omega
    have hfle : ⌊(q + 1) * 255 * (1 / 2)⌋ ≤ 0 := by omega
    have hlt : (q + 1) * 255 * (1 / 2) < 1 := by
      have h3 := Int.lt_floor_add_one ((q + 1) * 255 * (1 / 2))
      have h4 : (⌊(q + 1) * 255 * (1 / 2)⌋ : ℚ) + 1 ≤ 1 := by exact_mod_cast by omega
      linarith
    linarith
  rintro ⟨h1, h2, h3⟩
  have hq1 := key n.1 (hcomp n.1 hb1).1 (hcomp n.1 hb1).2 h1
  have hq2 := key n.2.1 (hcomp n.2.1 hb2).1 (hcomp n.2.1 hb2).2 h2
  have hq3 := key n.2.2 (hcomp n.2.2 hb3).1 (hcomp n.2.2 hb3).2 h3
  have hs1 : (253 / 255 : ℚ) * (253 / 255) < n.1 * n.1 := by
    nlinarith [mul_pos (show (0 : ℚ) < -n.1 - 253 / 255 by linarith)
      (show (0 : ℚ) < -n.1 + 253 / 255 by linarith)]
  have hs2 : (253 / 255 : ℚ) * (253 / 255) < n.2.1 * n.2.1 := by
    nlinarith [mul_pos (show (0 : ℚ) < -n.2.1 - 253 / 255 by linarith)
      (show (0 : ℚ) < -n.2.1 + 253 / 255 by linarith)]
  have hs3 : (253 / 255 : ℚ) * (253 / 255) < n.2.2 * n.2.2 := by
    nlinarith [mul_pos (show (0 : ℚ) < -n.2.2 - 253 / 255 by linarith)
      (show (0 : ℚ) < -n.2.2 + 253 / 255 by linarith)]
  unfold dot at hn
  nlinarith [hs1, hs2, hs3]

/-- C10: whenever split_voxel performs its first geometry write at a voxel
with a successful (NaN-free) geometry computation, the stored second word —
centroid-z byte and the three quantised normal bytes — is nonzero, because
the stored normal has Euclidean norm at most 1 and so its components cannot
all quantise to byte 0; hence the word-1-nonzero test of the next label
iteration detects the boundary. -/
theorem C10_first_write_word1_nonzero (sq : ℚ → ℚ) (field : Idx3 → ℚ) (label : ℕ)
    (dim b : Idx3) (s : ByteState)
    (hsq : ∀ x : ℚ, 0 ≤ x → 0 ≤ sq x ∧ x ≤ sq x ^ 2)
    (h0 : cube_index (cubeValues field b) ≠ 0)
    (h255 : cube_index (cubeValues field b) ≠ 255)
    (hword : word_at s (flatten_3d_to_1d (voxelOfBlock b) dim
      + dim.1 * dim.2.1 * dim.2.2) = 0)
    (hlen : 0 < dim.1 * dim.2.1 * dim.2.2)
    (c n : Vec3) (hg : geomOfCube sq (cubeValues field b) = some (c, n)) :
    word_at (split_voxel sq field label dim b s)
      (flatten_3d_to_1d (voxelOfBlock b) dim + dim.1 * dim.2.1 * dim.2.2) ≠ 0 := by
  rw [split_voxel_first sq field label dim b s (by tauto) hword]
  obtain ⟨hb0, hb2, hb3, hcz, hn1, hn2, hn3⟩ :=
    writeGeometry_bytes sq field label b _ _ s hlen c n hg
  unfold word_at
  rw [hcz, hn1, hn2, hn3]
  intro hzero
  apply quant_bytes_nonzero n (geomOfCube_norm_le sq (cubeValues field b) c n hsq hg)
  omega

/-- Witness for C10 at a concrete field and square root. -/
theorem C10_first_write_word1_nonzero_witness :
    geomOfCube sqMax (cubeValues planeField (0, 0, 0))
        = some (((1 : ℚ)/2, (1 : ℚ)/2, (1 : ℚ)/2), (0, -1, 0)) ∧
    word_at (split_voxel sqMax planeField 2 (3, 3, 3) (0, 0, 0) zeroBytes)
      (flatten_3d_to_1d (voxelOfBlock (0, 0, 0)) (3, 3, 3) + 3 * 3 * 3) ≠ 0 := by
  have hsq : ∀ x : ℚ, 0 ≤ x → 0 ≤ sqMax x ∧ x ≤ sqMax x ^ 2 := by
    intro x hx
    constructor
    · exact le_trans (by norm_num) (le_max_left 1 x)
    · rcases le_total x 1 with h | h
      · rw [show sqMax x = max 1 x from rfl, max_eq_left h]
        nlinarith
      · rw [show sqMax x = max 1 x from rfl, max_eq_right h]
        nlinarith
  have hg : geomOfCube sqMax (cubeValues planeField (0, 0, 0))
      = some (((1 : ℚ)/2, (1 : ℚ)/2, (1 : ℚ)/2), (0, -1, 0)) := by
    with_unfolding_all decide
  refine ⟨hg, ?_⟩
  exact C10_first_write_word1_nonzero sqMax planeField 2 (3, 3, 3) (0, 0, 0) zeroBytes hsq
    (by with_unfolding_all decide) (by with_unfolding_all decide)
    (by with_unfolding_all decide) (by decide)
    ((1 : ℚ)/2, (1 : ℚ)/2, (1 : ℚ)/2) (0, -1, 0) hg

end SVMC
